import Mathlib

set_option autoImplicit false

/-!
Verification development for the TOG language pipeline: a shallow embedding of
the lexer, the tree-walking evaluator, the builtin library, and the IR
optimizer, together with theorems about the properties stated in the
specification.  Rust `i64` arithmetic is modelled by unbounded `Int`
(truncating division `Int.tdiv` and remainder `Int.tmod` match Rust `/` and
`%` on the values where Rust does not panic); Rust `f64` is modelled by
`Float`; `HashMap` is modelled by an association list with
insert-overwrites-key semantics, with the (run-dependent) iteration order
supplied as an explicit parameter where the source iterates a map.
-/

namespace TOG

/-! ### ast.rs -/

/-- `Type` from `ast.rs` (named `Ty` because `Type` is reserved in Lean). -/
inductive Ty where
  | int
  | float
  | string
  | bool
  | array : Ty → Ty
  | struct : String → Ty
  | enum : String → Ty
  | function : List Ty → Ty → Ty
  | none
  | infer

/-- `BinaryOp` from `ast.rs`. -/
inductive BinaryOp where
  | add | sub | mul | div | mod | eq | ne | lt | le | gt | ge | and | or
deriving Repr, DecidableEq

/-- `UnaryOp` from `ast.rs`. -/
inductive UnaryOp where
  | not | neg
deriving Repr, DecidableEq

/-- `Param` from `ast.rs`. -/
structure Param where
  name : String
  type_annotation : Option Ty

/-- `EnumVariant` from `ast.rs`. -/
structure EnumVariant where
  name : String
  data_type : Option Ty

/-- `TraitMethod` from `ast.rs`. -/
structure TraitMethod where
  name : String
  params : List Param
  return_type : Option Ty

mutual

/-- `Expr` from `ast.rs`.  Constructor names that collide with Lean keywords
carry a trailing underscore. -/
inductive Expr where
  | literal : Literal → Expr
  | variable : String → Expr
  | structLiteral : String → List (String × Expr) → Expr
  | fieldAccess : Expr → String → Expr
  | binaryOp : Expr → BinaryOp → Expr → Expr
  | unaryOp : UnaryOp → Expr → Expr
  | call : Expr → List Expr → Expr
  | block : List Stmt → Expr
  | if_ : Expr → Expr → Option Expr → Expr
  | while_ : Expr → Expr → Expr
  | match_ : Expr → List MatchArm → Expr
  | function : String → List Param → Option Ty → Expr → Expr
  | index : Expr → Expr → Expr
  | for_ : String → Expr → Expr → Expr
  | enumVariant : String → String → Option Expr → Expr

/-- `Stmt` from `ast.rs`. -/
inductive Stmt where
  | expr : Expr → Stmt
  | let_ : String → Option Ty → Expr → Stmt
  | assign : String → Expr → Stmt
  | assignField : Expr → String → Expr → Stmt
  | structDef : String → List (String × Option Ty) → List MethodDecl → Stmt
  | enumDef : String → List EnumVariant → Stmt
  | traitDef : String → List TraitMethod → Stmt
  | implBlock : Option String → String → List MethodDecl → Stmt
  | return_ : Option Expr → Stmt
  | break_ : Stmt
  | continue_ : Stmt

/-- `Literal` from `ast.rs`. -/
inductive Literal where
  | int : Int → Literal
  | float : Float → Literal
  | string : String → Literal
  | bool : Bool → Literal
  | array : List Expr → Literal
  | none : Literal

/-- `Pattern`.  The `ast.rs` file declares only `Literal`, `Variable` and
`Wildcard`, but `interpreter.rs` pattern-matches on a `Pattern::EnumVariant`
variant with an `enum_name`, a `variant_name` and an optional `binding`
(an incomplete refactor that the specification's design notes describe);
the embedding includes that variant so that the evaluator can be
transcribed. -/
inductive Pattern where
  | literal : Literal → Pattern
  | variable : String → Pattern
  | wildcard : Pattern
  | enumVariant : String → String → Option String → Pattern

/-- `MatchArm` from `ast.rs`. -/
inductive MatchArm where
  | mk : Pattern → Expr → MatchArm

/-- `MethodDecl` from `ast.rs`. -/
inductive MethodDecl where
  | mk : String → List Param → Option Ty → Expr → MethodDecl

end

/-- Field accessor matching `MatchArm.pattern`. -/
def MatchArm.pattern : MatchArm → Pattern
  | .mk p _ => p

/-- Field accessor matching `MatchArm.body`. -/
def MatchArm.body : MatchArm → Expr
  | .mk _ b => b

/-- Field accessor matching `MethodDecl.name`. -/
def MethodDecl.name : MethodDecl → String
  | .mk n _ _ _ => n

/-- Field accessor matching `MethodDecl.params`. -/
def MethodDecl.params : MethodDecl → List Param
  | .mk _ ps _ _ => ps

/-- Field accessor matching `MethodDecl.body`. -/
def MethodDecl.body : MethodDecl → Expr
  | .mk _ _ _ b => b

/-- `Program` from `ast.rs`. -/
structure Program where
  statements : List Stmt

/-! ### error.rs -/

/-- `TogError` from `error.rs`. -/
inductive TogError where
  | lexError : String → Nat → Nat → TogError
  | parseError : String → Nat → Nat → TogError
  | runtimeError : String → Option Nat → TogError
  | ioError : String → TogError
  | typeError : String → Option Nat → TogError
deriving Repr, DecidableEq

/-! ### Association-list model of `std::collections::HashMap`

Lookup, insert (overwriting an existing key), key test and removal agree
with the hash map's observable behaviour; iteration order, which Rust
randomizes per process, is modelled separately (see `value_to_string`). -/

/-- `HashMap::get`, as association-list lookup on the first matching key. -/
def lookupKV {κ α : Type} [DecidableEq κ] : List (κ × α) → κ → Option α
  | [], _ => Option.none
  | (k', v) :: rest, k => if k' = k then some v else lookupKV rest k

/-- `HashMap::insert`: overwrite the binding if the key is present,
otherwise append it. -/
def insertKV {κ α : Type} [DecidableEq κ] : List (κ × α) → κ → α → List (κ × α)
  | [], k, v => [(k, v)]
  | (k', v') :: rest, k, v =>
    if k' = k then (k, v) :: rest else (k', v') :: insertKV rest k v

/-- `HashMap::contains_key`. -/
def containsKV {κ α : Type} [DecidableEq κ] (m : List (κ × α)) (k : κ) : Bool :=
  (lookupKV m k).isSome

/-- `HashMap::remove` (the value is discarded by every caller). -/
def removeKV {κ α : Type} [DecidableEq κ] : List (κ × α) → κ → List (κ × α)
  | [], _ => []
  | (k', v') :: rest, k =>
    if k' = k then rest else (k', v') :: removeKV rest k

/-! ### compiler/ir.rs (data model) -/

mutual

/-- `IrValue` from `compiler/ir.rs`. -/
inductive IrValue where
  | int : Int → IrValue
  | float : Float → IrValue
  | string : String → IrValue
  | bool : Bool → IrValue
  | array : List IrExpression → IrValue
  | none : IrValue

/-- `IrExpression` from `compiler/ir.rs`. -/
inductive IrExpression where
  | literal : IrValue → IrExpression
  | variable : String → IrExpression
  | binaryOp : IrExpression → BinaryOp → IrExpression → IrExpression
  | unaryOp : UnaryOp → IrExpression → IrExpression
  | call : String → List IrExpression → IrExpression
  | index : IrExpression → IrExpression → IrExpression

/-- `IrBlock` from `compiler/ir.rs`. -/
inductive IrBlock where
  | block : List IrStatement → IrBlock
  | expression : IrExpression → IrBlock

/-- `IrStatement` from `compiler/ir.rs`. -/
inductive IrStatement where
  | let_ : String → IrExpression → IrStatement
  | assign : String → IrExpression → IrStatement
  | return_ : Option IrExpression → IrStatement
  | break_ : IrStatement
  | continue_ : IrStatement
  | expression : IrExpression → IrStatement
  | if_ : IrExpression → IrBlock → Option IrBlock → IrStatement
  | while_ : IrExpression → IrBlock → IrStatement

end

/-- `IrParam` from `compiler/ir.rs`. -/
structure IrParam where
  name : String
  param_type : Option Ty

/-- `IrFunction` from `compiler/ir.rs`. -/
structure IrFunction where
  name : String
  params : List IrParam
  return_type : Option Ty
  body : IrBlock
  is_public : Bool

/-- `IrGlobal` from `compiler/ir.rs`. -/
structure IrGlobal where
  name : String
  value_type : Ty
  initializer : IrValue

/-- `IrProgram` from `compiler/ir.rs`. -/
structure IrProgram where
  functions : List IrFunction
  globals : List IrGlobal

/-! ### compiler/optimizer.rs -/

namespace Optimizer

/-- `evaluate_binary_op` from `compiler/optimizer.rs`: the constant-folding
table; `Some` for the foldable integer operations, `None` where the source
cannot evaluate at compile time, and a compile-time error for an integer
division by the literal zero.  Rust `/` on `i64` is `Int.tdiv`. -/
def evaluate_binary_op (left : IrValue) (op : BinaryOp) (right : IrValue) :
    Except TogError (Option IrValue) :=
  match left, op, right with
  | .int a, .add, .int b => .ok (some (.int (a + b)))
  | .int a, .sub, .int b => .ok (some (.int (a - b)))
  | .int a, .mul, .int b => .ok (some (.int (a * b)))
  | .int a, .div, .int b =>
    if b = 0 then .error (.runtimeError "Division by zero" Option.none)
    else .ok (some (.int (Int.tdiv a b)))
  | .int a, .eq, .int b => .ok (some (.bool (a = b)))
  | .int a, .ne, .int b => .ok (some (.bool (a ≠ b)))
  | _, _, _ => .ok Option.none

/-- `evaluate_unary_op` from `compiler/optimizer.rs`. -/
def evaluate_unary_op (op : UnaryOp) (val : IrValue) :
    Except TogError (Option IrValue) :=
  match op, val with
  | .neg, .int n => .ok (some (.int (-n)))
  | .not, .bool b => .ok (some (.bool (!b)))
  | _, _ => .ok Option.none

/-- The first attempt of the `BinaryOp` arm of `fold_constant_expr`: try
the table when both children are already literals. -/
def foldFirstTry (left : IrExpression) (op : BinaryOp) (right : IrExpression) :
    Except TogError (Option IrValue) :=
  match left, right with
  | .literal left_val, .literal right_val => evaluate_binary_op left_val op right_val
  | _, _ => .ok Option.none

/-- The retry of the `BinaryOp` arm of `fold_constant_expr` after the
children have been folded: try the table again, otherwise rebuild the
node. -/
def foldRetry (folded_left : IrExpression) (op : BinaryOp)
    (folded_right : IrExpression) : Except TogError IrExpression :=
  match folded_left, folded_right with
  | .literal left_val, .literal right_val =>
    (match evaluate_binary_op left_val op right_val with
      | .error e => .error e
      | .ok (some result) => .ok (.literal result)
      | .ok Option.none => .ok (.binaryOp folded_left op folded_right))
  | _, _ => .ok (.binaryOp folded_left op folded_right)

/-- The tail of the `UnaryOp` arm of `fold_constant_expr`: try the unary
table on the folded child, otherwise rebuild the node. -/
def foldUnaryRetry (op : UnaryOp) (folded : IrExpression) :
    Except TogError IrExpression :=
  match folded with
  | .literal val =>
    (match evaluate_unary_op op val with
      | .error e => .error e
      | .ok (some result) => .ok (.literal result)
      | .ok Option.none => .ok (.unaryOp op folded))
  | _ => .ok (.unaryOp op folded)

/-- `fold_constant_expr` from `compiler/optimizer.rs`: first try to evaluate
when both children are already literals (an evaluation error propagates, an
early return fires on success), then fold the children recursively and try
the table again, otherwise rebuild the node.  Every other expression form is
returned unchanged (`_ => Ok(expr.clone())`). -/
def fold_constant_expr : IrExpression → Except TogError IrExpression
  | .binaryOp left op right => do
    match ← foldFirstTry left op right with
    | some result => return .literal result
    | Option.none =>
      let folded_left ← fold_constant_expr left
      let folded_right ← fold_constant_expr right
      foldRetry folded_left op folded_right
  | .unaryOp op expr => do
    let folded ← fold_constant_expr expr
    foldUnaryRetry op folded
  | expr => .ok expr

/-- `HashSet::insert` on the called-functions set, modelled on a list whose
only observable is membership. -/
def insertSet (s : List String) (x : String) : List String :=
  if s.contains x then s else x :: s

mutual

/-- `find_function_calls` from `compiler/optimizer.rs` (the `called` set is
threaded explicitly instead of being mutated). -/
def find_function_calls : IrBlock → List String → List String
  | .block statements, called => findCallsStmtList statements called
  | .expression expr, called => find_function_calls_in_expr expr called

/-- The `for stmt in statements` loop inside `find_function_calls`. -/
def findCallsStmtList : List IrStatement → List String → List String
  | [], called => called
  | stmt :: rest, called =>
    findCallsStmtList rest (find_function_calls_in_stmt stmt called)

/-- `find_function_calls_in_stmt` from `compiler/optimizer.rs`. -/
def find_function_calls_in_stmt : IrStatement → List String → List String
  | .let_ _ value, called => find_function_calls_in_expr value called
  | .assign _ value, called => find_function_calls_in_expr value called
  | .return_ expr, called =>
    match expr with
    | some e => find_function_calls_in_expr e called
    | Option.none => called
  | .expression expr, called => find_function_calls_in_expr expr called
  | .if_ condition then_branch else_branch, called =>
    let called := find_function_calls_in_expr condition called
    let called := find_function_calls then_branch called
    match else_branch with
    | some else_b => find_function_calls else_b called
    | Option.none => called
  | .while_ condition body, called =>
    find_function_calls body (find_function_calls_in_expr condition called)
  | .break_, called => called
  | .continue_, called => called

/-- `find_function_calls_in_expr` from `compiler/optimizer.rs`. -/
def find_function_calls_in_expr : IrExpression → List String → List String
  | .call callee args, called => findCallsExprList args (insertSet called callee)
  | .binaryOp left _ right, called =>
    find_function_calls_in_expr right (find_function_calls_in_expr left called)
  | .unaryOp _ expr, called => find_function_calls_in_expr expr called
  | .index base idx, called =>
    find_function_calls_in_expr idx (find_function_calls_in_expr base called)
  | _, called => called

/-- The `for arg in args` loop inside `find_function_calls_in_expr`. -/
def findCallsExprList : List IrExpression → List String → List String
  | [], called => called
  | arg :: rest, called =>
    findCallsExprList rest (find_function_calls_in_expr arg called)

end

/-- `remove_unused_functions` from `compiler/optimizer.rs`: start the set
from `"main"`, scan every function body for call expressions, then retain
the functions whose name is in the set or which are public. -/
def remove_unused_functions (program : IrProgram) : IrProgram :=
  let called_functions :=
    program.functions.foldl (fun acc f => find_function_calls f.body acc) ["main"]
  { program with
    functions :=
      program.functions.filter
        (fun f => called_functions.contains f.name || f.is_public) }

end Optimizer

/-! ### Specification-side vocabulary for unused-function removal (claim C5).

`calleesOfBlock` collects the callee names that a scan of call expressions
can see (the same coverage as `find_function_calls`), and
`specReachableNames` is the set the claim describes: the names transitively
reachable from `main` and the public functions. -/

mutual

/-- Callee names occurring in a block, in specification vocabulary. -/
def calleesOfBlock : IrBlock → List String
  | .block statements => calleesOfStmtList statements
  | .expression expr => calleesOfExpr expr

/-- Callee names occurring in a statement list. -/
def calleesOfStmtList : List IrStatement → List String
  | [] => []
  | stmt :: rest => calleesOfStmt stmt ++ calleesOfStmtList rest

/-- Callee names occurring in a statement. -/
def calleesOfStmt : IrStatement → List String
  | .let_ _ value => calleesOfExpr value
  | .assign _ value => calleesOfExpr value
  | .return_ (some e) => calleesOfExpr e
  | .return_ Option.none => []
  | .expression expr => calleesOfExpr expr
  | .if_ condition then_branch else_branch =>
    calleesOfExpr condition ++ calleesOfBlock then_branch ++
      (match else_branch with
        | some else_b => calleesOfBlock else_b
        | Option.none => [])
  | .while_ condition body => calleesOfExpr condition ++ calleesOfBlock body
  | .break_ => []
  | .continue_ => []

/-- Callee names occurring in an expression. -/
def calleesOfExpr : IrExpression → List String
  | .call callee args => callee :: calleesOfExprList args
  | .binaryOp left _ right => calleesOfExpr left ++ calleesOfExpr right
  | .unaryOp _ expr => calleesOfExpr expr
  | .index base idx => calleesOfExpr base ++ calleesOfExpr idx
  | _ => []

/-- Callee names occurring in an expression list. -/
def calleesOfExprList : List IrExpression → List String
  | [] => []
  | arg :: rest => calleesOfExpr arg ++ calleesOfExprList rest

end

/-- The claim's roots: `main` and every public function. -/
def specRoots (p : IrProgram) : List String :=
  "main" :: (p.functions.filter (fun f => f.is_public)).map (fun f => f.name)

/-- One step of the claim's transitive-reachability computation. -/
def specReachStep (p : IrProgram) (s : List String) : List String :=
  s ++ (p.functions.filter (fun f => s.contains f.name)).flatMap
    (fun f => calleesOfBlock f.body)

/-- Iterate the reachability step. -/
def specReachIter (p : IrProgram) : Nat → List String
  | 0 => specRoots p
  | n + 1 => specReachStep p (specReachIter p n)

/-- The set of function names transitively reachable, through call
expressions, from `main` and the public functions (the set described by
claim C5); `p.functions.length` steps saturate the closure. -/
def specReachableNames (p : IrProgram) : List String :=
  specReachIter p p.functions.length

/-! ### interpreter.rs: runtime values and environments -/

/-- The errors an evaluation can produce: a returned `TogError`, a host
(Rust) panic such as `%` by a zero divisor, or exhaustion of the fuel that
bounds the embedding's recursion depth (the Rust evaluator has no such
bound; `fuel` marks a computation the bound cut off, never a result). -/
inductive EvalErr where
  | tog : TogError → EvalErr
  | hostPanic : String → EvalErr
  | fuel : EvalErr
deriving Repr, DecidableEq

/-- `Value` from `interpreter.rs`.  A function value stores its closure as a
handle (index) into the store of environment frames, mirroring
`Rc<RefCell<Environment>>`. -/
inductive Value where
  | int : Int → Value
  | float : Float → Value
  | string : String → Value
  | bool : Bool → Value
  | array : List Value → Value
  | struct : String → List (String × Value) → Value
  | enum : String → String → Option Value → Value
  | function : String → List Param → Expr → Nat → Option Value → Value
  | none : Value

mutual

/-- `PartialEq for Value` from `interpreter.rs`: structural equality with
hash-map (order-insensitive) comparison of struct fields, and functions
never equal. -/
def valueEq : Value → Value → Bool
  | .int a, .int b => a == b
  | .float a, .float b => a == b
  | .string a, .string b => a == b
  | .bool a, .bool b => a == b
  | .array a, .array b => valueListEq a b
  | .struct n1 f1, .struct n2 f2 =>
    n1 == n2 && f1.length == f2.length && fieldsSubEq f1 f2
  | .enum e1 v1 d1, .enum e2 v2 d2 =>
    e1 == e2 && v1 == v2 && valueOptEq d1 d2
  | .function _ _ _ _ _, .function _ _ _ _ _ => false
  | .none, .none => true
  | _, _ => false

/-- `Vec<Value>` equality: pointwise with equal lengths. -/
def valueListEq : List Value → List Value → Bool
  | [], [] => true
  | a :: as_, b :: bs => valueEq a b && valueListEq as_ bs
  | _, _ => false

/-- Every binding of the first field map is present with an equal value in
the second (with equal sizes this is `HashMap` equality). -/
def fieldsSubEq : List (String × Value) → List (String × Value) → Bool
  | [], _ => true
  | (k, v) :: rest, f2 =>
    (match lookupKV f2 k with
      | some w => valueEq v w
      | Option.none => false) && fieldsSubEq rest f2

/-- `Option<Box<Value>>` equality. -/
def valueOptEq : Option Value → Option Value → Bool
  | Option.none, Option.none => true
  | some a, some b => valueEq a b
  | _, _ => false

end

/-- `ControlFlow` from `interpreter.rs`. -/
inductive ControlFlow where
  | normal
  | break_
  | continue_
deriving Repr, DecidableEq

/-- The Rust `Debug` rendering of `ControlFlow` (used by the
`"{:?} outside of loop"` error message). -/
def ControlFlow.debug : ControlFlow → String
  | .normal => "Normal"
  | .break_ => "Break"
  | .continue_ => "Continue"

/-- `Environment` from `interpreter.rs`: one frame of the lexical chain.
`enclosing` is a handle into the frame store. -/
structure Environment where
  enclosing : Option Nat
  values : List (String × Value)

/-- The interpreter's state: the store of environment frames (append-only,
modelling the shared `Rc<RefCell<_>>` frames), the handle of the current
environment, the definition registries, and the stdout text produced so
far. -/
structure InterpState where
  frames : List Environment
  env : Nat
  struct_defs : List (String × (List (String × Option Ty) × List MethodDecl))
  enum_defs : List (String × List EnumVariant)
  trait_defs : List (String × List TraitMethod)
  trait_impls : List ((String × String) × List MethodDecl)
  inherent_impls : List (String × List MethodDecl)
  output : String

/-- The interpreter's initial state: a single empty global frame. -/
def initState : InterpState :=
  { frames := [{ enclosing := Option.none, values := [] }]
    env := 0
    struct_defs := []
    enum_defs := []
    trait_defs := []
    trait_impls := []
    inherent_impls := []
    output := "" }

/-- `Environment::get` starting from frame `h`, walking the enclosing
chain.  `gas` bounds the walk (call sites pass `st.frames.length`, which
covers every chain in a store whose `enclosing` handles strictly
decrease, as the evaluator maintains). -/
def envGet (st : InterpState) : Nat → Nat → String → Except TogError Value
  | 0, _, name =>
    .error (.runtimeError ("Undefined variable: " ++ name) Option.none)
  | gas + 1, h, name =>
    match st.frames.get? h with
    | some fr =>
      match lookupKV fr.values name with
      | some v => .ok v
      | Option.none =>
        match fr.enclosing with
        | some e => envGet st gas e name
        | Option.none =>
          .error (.runtimeError ("Undefined variable: " ++ name) Option.none)
    | Option.none =>
      .error (.runtimeError ("Undefined variable: " ++ name) Option.none)

/-- `Environment::get` from the current environment
(`self.environment.borrow().get(name)`). -/
def getVar (st : InterpState) (name : String) : Except TogError Value :=
  envGet st st.frames.length st.env name

/-- `Environment::assign` starting from frame `h`: overwrite the binding in
the innermost frame of the chain that contains the name. -/
def envAssign (st : InterpState) : Nat → Nat → String → Value →
    Except TogError InterpState
  | 0, _, name, _ =>
    .error (.runtimeError ("Cannot assign to undefined variable: " ++ name) Option.none)
  | gas + 1, h, name, v =>
    match st.frames.get? h with
    | some fr =>
      if containsKV fr.values name then
        .ok { st with
          frames := st.frames.set h { fr with values := insertKV fr.values name v } }
      else
        match fr.enclosing with
        | some e => envAssign st gas e name v
        | Option.none =>
          .error (.runtimeError ("Cannot assign to undefined variable: " ++ name) Option.none)
    | Option.none =>
      .error (.runtimeError ("Cannot assign to undefined variable: " ++ name) Option.none)

/-- `Environment::assign` from the current environment. -/
def assignVar (st : InterpState) (name : String) (v : Value) :
    Except TogError InterpState :=
  envAssign st st.frames.length st.env name v

/-- `Environment::define` on the current frame. -/
def defineVar (st : InterpState) (name : String) (v : Value) : InterpState :=
  match st.frames.get? st.env with
  | some fr =>
    { st with frames := st.frames.set st.env { fr with values := insertKV fr.values name v } }
  | Option.none => st

/-- `Environment::remove` on the current frame. -/
def removeVar (st : InterpState) (name : String) : InterpState :=
  match st.frames.get? st.env with
  | some fr =>
    { st with frames := st.frames.set st.env { fr with values := removeKV fr.values name } }
  | Option.none => st

/-- Allocate a fresh frame enclosing the given handle and make it current
(`Environment::new(Some(..))` wrapped in a fresh `Rc`); returns the new
state.  The previous handle is what callers save into `old_env`. -/
def pushFrame (st : InterpState) (enclosing : Option Nat) : InterpState :=
  { st with
    frames := st.frames ++ [{ enclosing := enclosing, values := [] }]
    env := st.frames.length }

/-- `is_truthy` from `interpreter.rs`. -/
def is_truthy : Value → Bool
  | .bool false => false
  | .none => false
  | _ => true

/-- `literal_to_value` from `interpreter.rs`.  The array arm is
`unreachable!()` in the source (arrays are handled directly in
`evaluate`), modelled as a host panic. -/
def literal_to_value : Literal → Except EvalErr Value
  | .int n => .ok (.int n)
  | .float n => .ok (.float n)
  | .string s => .ok (.string s)
  | .bool b => .ok (.bool b)
  | .array _ => .error (.hostPanic "Arrays should be handled in evaluate()")
  | .none => .ok .none

/-! ### Rendering values (`value_to_string`)

Both `interpreter.rs` and `stdlib.rs` define a `value_to_string`; the two
differ only in their rendering of function values.  The struct arm iterates
a `HashMap`, whose order Rust randomizes per process: the embedding renders
the parts in insertion order and applies `ord`, the run's iteration order,
to the rendered parts (a permutation when `ord` is valid). -/

namespace Interp

mutual

/-- `value_to_string` from `interpreter.rs`. -/
def value_to_string (ord : List String → List String) : Value → String
  | .int i => toString i
  | .float f => toString f
  | .string s => s
  | .bool b => if b then "true" else "false"
  | .array arr =>
    "[" ++ String.intercalate ", " (valuesToStrings ord arr) ++ "]"
  | .struct name fields =>
    name ++ " \x7b " ++ String.intercalate ", " (ord (fieldParts ord fields)) ++ " \x7d"
  | .enum enum_name variant_name (some d) =>
    enum_name ++ "::" ++ variant_name ++ "(" ++ value_to_string ord d ++ ")"
  | .enum enum_name variant_name Option.none =>
    enum_name ++ "::" ++ variant_name
  | .function name _ _ _ _ => "<fn " ++ name ++ ">"
  | .none => "none"

/-- The element-wise rendering of an array. -/
def valuesToStrings (ord : List String → List String) : List Value → List String
  | [] => []
  | v :: rest => value_to_string ord v :: valuesToStrings ord rest

/-- The `"{}: {}"` parts of a struct rendering, in insertion order. -/
def fieldParts (ord : List String → List String) :
    List (String × Value) → List String
  | [] => []
  | (k, v) :: rest => (k ++ ": " ++ value_to_string ord v) :: fieldParts ord rest

end

end Interp

namespace Stdlib

mutual

/-- `value_to_string` from `stdlib.rs` (identical to the interpreter's
except for the `<function …>` arm). -/
def value_to_string (ord : List String → List String) : Value → String
  | .int i => toString i
  | .float f => toString f
  | .string s => s
  | .bool b => if b then "true" else "false"
  | .array arr =>
    "[" ++ String.intercalate ", " (valuesToStrings ord arr) ++ "]"
  | .struct name fields =>
    name ++ " \x7b " ++ String.intercalate ", " (ord (fieldParts ord fields)) ++ " \x7d"
  | .enum enum_name variant_name (some d) =>
    enum_name ++ "::" ++ variant_name ++ "(" ++ value_to_string ord d ++ ")"
  | .enum enum_name variant_name Option.none =>
    enum_name ++ "::" ++ variant_name
  | .function name _ _ _ _ => "<function " ++ name ++ ">"
  | .none => "none"

/-- The element-wise rendering of an array. -/
def valuesToStrings (ord : List String → List String) : List Value → List String
  | [] => []
  | v :: rest => value_to_string ord v :: valuesToStrings ord rest

/-- The `"{}: {}"` parts of a struct rendering, in insertion order. -/
def fieldParts (ord : List String → List String) :
    List (String × Value) → List String
  | [] => []
  | (k, v) :: rest => (k ++ ": " ++ value_to_string ord v) :: fieldParts ord rest

end

end Stdlib

/-! ### String helpers modelling Rust `str` methods -/

/-- Rust `str::starts_with` on character lists. -/
def strStartsWithChars : List Char → List Char → Bool
  | [], _ => true
  | _ :: _, [] => false
  | p :: ps, c :: cs => p == c && strStartsWithChars ps cs

/-- Substring search on character lists. -/
def strContainsSubAux (sub : List Char) : List Char → Bool
  | [] => sub.isEmpty
  | c :: cs => strStartsWithChars sub (c :: cs) || strContainsSubAux sub cs

/-- Rust `str::contains(sub)`. -/
def strContainsSub (hay sub : String) : Bool :=
  strContainsSubAux sub.toList hay.toList

/-- Rust `i64 as u32` (two's-complement low 32 bits). -/
def wrapU32 (x : Int) : Nat := (x % 4294967296).toNat

/-- Rust `i64 as i32`. -/
def wrapI32 (x : Int) : Int :=
  let m := x % 4294967296
  if m < 2147483648 then m else m - 4294967296

/-- Rust `i64 as usize` (two's-complement low 64 bits). -/
def wrapU64 (x : Int) : Nat := (x % 18446744073709551616).toNat

namespace Stdlib

/-- `gpu_accelerate` from `stdlib.rs`. -/
def gpu_accelerate (operation : String) (array : List Value) :
    Except EvalErr Value :=
  let all_numeric := array.all (fun v =>
    match v with
    | .int _ => true
    | .float _ => true
    | _ => false)
  if !all_numeric then
    .error (.tog (.typeError "GPU acceleration requires numeric arrays" Option.none))
  else
    match operation with
    | "sum" =>
      .ok (.float (array.foldl (fun acc v =>
        acc + (match v with
          | .int i => Float.ofInt i
          | .float f => f
          | _ => 0.0)) 0.0))
    | "product" =>
      .ok (.float (array.foldl (fun acc v =>
        acc * (match v with
          | .int i => Float.ofInt i
          | .float f => f
          | _ => 1.0)) 1.0))
    | "mean" =>
      if array.isEmpty then
        .error (.tog (.runtimeError "Cannot compute mean of empty array" Option.none))
      else
        .ok (.float
          ((array.foldl (fun acc v =>
            acc + (match v with
              | .int i => Float.ofInt i
              | .float f => f
              | _ => 0.0)) 0.0) / Float.ofNat array.length))
    | _ =>
      .error (.tog (.runtimeError ("Unknown GPU operation: " ++ operation) Option.none))

/-- One bubble pass of the `sort` builtin; returns the passed list and
whether any adjacent pair was swapped. -/
def bubblePass : List Value → List Value × Bool
  | [] => ([], false)
  | [a] => ([a], false)
  | a :: b :: rest =>
    let should_swap : Bool :=
      match a, b with
      | .int x, .int y => decide (x > y)
      | .float x, .float y => decide (x > y)
      | _, _ => false
    if should_swap then
      let (r, _) := bubblePass (a :: rest)
      (b :: r, true)
    else
      let (r, sw) := bubblePass (b :: rest)
      (a :: r, sw)

/-- The `while swapped` loop of the `sort` builtin; `length + 1` passes are
always enough for bubble sort to reach a pass with no swaps, so the fuel
never runs out on the loop the source executes. -/
def bubbleLoop : Nat → List Value → List Value
  | 0, l => l
  | n + 1, l =>
    let (l', sw) := bubblePass l
    if sw then bubbleLoop n l' else l'

/-- The `unique` builtin's accumulation loop (`Vec::contains` uses
`PartialEq`). -/
def uniqueAux : List Value → List Value → List Value
  | [], acc => acc
  | item :: rest, acc =>
    if acc.any (fun x => valueEq x item) then uniqueAux rest acc
    else uniqueAux rest (acc ++ [item])

/-- `call_builtin` from `stdlib.rs`.  `ord` is the run's hash-map iteration
order (used by the renderings), `fs` the read view of the file system
(`write_file`'s effect on the disk is outside every claim and is not
tracked).  The source's duplicate later `"map"`, `"filter"` and `"reduce"`
arms are unreachable (Rust `match` takes the first arm) and are omitted.
The result is the source's `Result<Value, TogError>` plus the host-panic
outcomes of the embedded `i64`/slice operations. -/
def call_builtin (ord : List String → List String) (fs : String → Option String)
    (name : String) (args : List Value) : Except EvalErr Value :=
  match name with
  | "len" =>
    match args with
    | [a] =>
      match a with
      | .string s => .ok (.int s.utf8ByteSize)
      | .array arr => .ok (.int arr.length)
      | _ => .error (.tog (.typeError "len() expects string or array" Option.none))
    | _ =>
      .error (.tog (.runtimeError
        ("len() expects 1 argument, got " ++ toString args.length) Option.none))
  | "to_string" =>
    match args with
    | [a] => .ok (.string (value_to_string ord a))
    | _ =>
      .error (.tog (.runtimeError
        ("to_string() expects 1 argument, got " ++ toString args.length) Option.none))
  | "range" =>
    match args with
    | [a] =>
      match a with
      | .int e =>
        if e < 0 then
          .error (.tog (.runtimeError "range() end must be non-negative" Option.none))
        else
          .ok (.array ((List.range e.toNat).map (fun i => .int i)))
      | _ => .error (.tog (.typeError "range() expects Int argument" Option.none))
    | [a, b] =>
      match a, b with
      | .int s, .int e =>
        if s > e then
          .error (.tog (.runtimeError "range() start must be <= end" Option.none))
        else
          .ok (.array ((List.range (e - s).toNat).map (fun i => .int (s + i))))
      | _, _ => .error (.tog (.typeError "range() expects Int arguments" Option.none))
    | _ =>
      .error (.tog (.runtimeError
        ("range() expects 1 or 2 arguments, got " ++ toString args.length) Option.none))
  | "map" =>
    match args with
    | [a, f] =>
      match a, f with
      | .array _, .function _ params _ _ _ =>
        if params.length ≠ 1 then
          .error (.tog (.runtimeError
            "map() function must take exactly 1 argument" Option.none))
        else
          .error (.tog (.runtimeError
            "map() requires interpreter context - use array comprehension instead"
            Option.none))
      | _, _ =>
        .error (.tog (.typeError "map() expects (array, function)" Option.none))
    | _ =>
      .error (.tog (.runtimeError
        ("map() expects 2 arguments (array, function), got " ++ toString args.length)
        Option.none))
  | "filter" =>
    match args with
    | [a, f] =>
      match a, f with
      | .array _, .function _ params _ _ _ =>
        if params.length ≠ 1 then
          .error (.tog (.runtimeError
            "filter() function must take exactly 1 argument" Option.none))
        else
          .error (.tog (.runtimeError
            "filter() requires interpreter context - use array comprehension instead"
            Option.none))
      | _, _ =>
        .error (.tog (.typeError "filter() expects (array, function)" Option.none))
    | _ =>
      .error (.tog (.runtimeError
        ("filter() expects 2 arguments (array, predicate), got " ++ toString args.length)
        Option.none))
  | "reduce" =>
    match args with
    | [a, _i, f] =>
      match a, f with
      | .array _, .function _ params _ _ _ =>
        if params.length ≠ 2 then
          .error (.tog (.runtimeError
            "reduce() function must take exactly 2 arguments (accumulator, element)"
            Option.none))
        else
          .error (.tog (.runtimeError
            "reduce() requires interpreter context - use loop instead" Option.none))
      | _, _ =>
        .error (.tog (.typeError "reduce() expects (array, initial_value, function)"
          Option.none))
    | _ =>
      .error (.tog (.runtimeError
        ("reduce() expects 3 arguments (array, initial, function), got " ++
          toString args.length) Option.none))
  | "split" =>
    match args with
    | [a, b] =>
      match a, b with
      | .string s, .string delim =>
        .ok (.array ((s.splitOn delim).map (fun part => .string part)))
      | _, _ => .error (.tog (.typeError "split() expects (string, string)" Option.none))
    | _ =>
      .error (.tog (.runtimeError
        ("split() expects 2 arguments (string, delimiter), got " ++ toString args.length)
        Option.none))
  | "join" =>
    match args with
    | [a, b] =>
      match a, b with
      | .array arr, .string delim =>
        .ok (.string (String.intercalate delim (arr.map (value_to_string ord))))
      | _, _ => .error (.tog (.typeError "join() expects (array, string)" Option.none))
    | _ =>
      .error (.tog (.runtimeError
        ("join() expects 2 arguments (array, delimiter), got " ++ toString args.length)
        Option.none))
  | "contains" =>
    match args with
    | [a, b] =>
      match a, b with
      | .string s, .string sub => .ok (.bool (strContainsSub s sub))
      | .array arr, item => .ok (.bool (arr.any (fun x => valueEq x item)))
      | _, _ =>
        .error (.tog (.typeError
          "contains() expects (string, string) or (array, value)" Option.none))
    | _ =>
      .error (.tog (.runtimeError
        ("contains() expects 2 arguments, got " ++ toString args.length) Option.none))
  | "substring" =>
    match args with
    | [a, b, c] =>
      match a, b, c with
      | .string s, .int start, .int stop =>
        if start < 0 || stop < 0 || start > stop || stop > (s.utf8ByteSize : Int) then
          .error (.tog (.runtimeError
            ("substring() invalid indices: start=" ++ toString start ++
              ", end=" ++ toString stop ++ ", len=" ++ toString s.utf8ByteSize)
            Option.none))
        else
          .ok (.string (s.extract ⟨start.toNat⟩ ⟨stop.toNat⟩))
      | _, _, _ =>
        .error (.tog (.typeError "substring() expects (string, int, int)" Option.none))
    | _ =>
      .error (.tog (.runtimeError
        ("substring() expects 3 arguments (string, start, end), got " ++
          toString args.length) Option.none))
  | "push" =>
    match args with
    | [a, v] =>
      match a with
      | .array arr => .ok (.array (arr ++ [v]))
      | _ =>
        .error (.tog (.typeError "push() expects array as first argument" Option.none))
    | _ =>
      .error (.tog (.runtimeError
        ("push() expects 2 arguments (array, value), got " ++ toString args.length)
        Option.none))
  | "pop" =>
    match args with
    | [a] =>
      match a with
      | .array arr =>
        if arr.isEmpty then
          .error (.tog (.runtimeError "pop() on empty array" Option.none))
        else
          .ok (.array arr.dropLast)
      | _ => .error (.tog (.typeError "pop() expects array" Option.none))
    | _ =>
      .error (.tog (.runtimeError
        ("pop() expects 1 argument (array), got " ++ toString args.length) Option.none))
  | "reverse" =>
    match args with
    | [a] =>
      match a with
      | .array arr => .ok (.array arr.reverse)
      | _ => .error (.tog (.typeError "reverse() expects array" Option.none))
    | _ =>
      .error (.tog (.runtimeError
        ("reverse() expects 1 argument (array), got " ++ toString args.length)
        Option.none))
  | "append" =>
    match args with
    | [a, v] =>
      match a with
      | .array arr => .ok (.array (arr ++ [v]))
      | _ =>
        .error (.tog (.typeError "append() expects array as first argument" Option.none))
    | _ =>
      .error (.tog (.runtimeError
        ("append() expects 2 arguments (array, value), got " ++ toString args.length)
        Option.none))
  | "min" =>
    match args with
    | [a, b] =>
      match a, b with
      | .int x, .int y => .ok (.int (min x y))
      | .float x, .float y => .ok (.float (if x < y then x else y))
      | _, _ => .error (.tog (.typeError "min() expects numeric arguments" Option.none))
    | _ =>
      .error (.tog (.runtimeError
        ("min() expects 2 arguments, got " ++ toString args.length) Option.none))
  | "max" =>
    match args with
    | [a, b] =>
      match a, b with
      | .int x, .int y => .ok (.int (max x y))
      | .float x, .float y => .ok (.float (if x > y then x else y))
      | _, _ => .error (.tog (.typeError "max() expects numeric arguments" Option.none))
    | _ =>
      .error (.tog (.runtimeError
        ("max() expects 2 arguments, got " ++ toString args.length) Option.none))
  | "abs" =>
    match args with
    | [a] =>
      match a with
      | .int n => .ok (.int |n|)
      | .float n => .ok (.float n.abs)
      | _ => .error (.tog (.typeError "abs() expects numeric argument" Option.none))
    | _ =>
      .error (.tog (.runtimeError
        ("abs() expects 1 argument, got " ++ toString args.length) Option.none))
  | "sqrt" =>
    match args with
    | [a] =>
      match a with
      | .int n =>
        if n < 0 then
          .error (.tog (.runtimeError "sqrt() of negative number" Option.none))
        else
          .ok (.float (Float.sqrt (Float.ofInt n)))
      | .float n =>
        if n < 0.0 then
          .error (.tog (.runtimeError "sqrt() of negative number" Option.none))
        else
          .ok (.float n.sqrt)
      | _ => .error (.tog (.typeError "sqrt() expects numeric argument" Option.none))
    | _ =>
      .error (.tog (.runtimeError
        ("sqrt() expects 1 argument, got " ++ toString args.length) Option.none))
  | "pow" =>
    match args with
    | [a, b] =>
      match a, b with
      | .int base, .int e => .ok (.int (base ^ wrapU32 e))
      | .float base, .float e => .ok (.float (base.pow e))
      | .int base, .float e => .ok (.float ((Float.ofInt base).pow e))
      | .float base, .int e => .ok (.float (base.pow (Float.ofInt (wrapI32 e))))
      | _, _ => .error (.tog (.typeError "pow() expects numeric arguments" Option.none))
    | _ =>
      .error (.tog (.runtimeError
        ("pow() expects 2 arguments (base, exponent), got " ++ toString args.length)
        Option.none))
  | "read_file" =>
    match args with
    | [a] =>
      match a with
      | .string filename =>
        match fs filename with
        | some contents => .ok (.string contents)
        | Option.none =>
          .error (.tog (.ioError ("Failed to read file '" ++ filename ++ "'")))
      | _ => .error (.tog (.typeError "read_file() expects string argument" Option.none))
    | _ =>
      .error (.tog (.runtimeError
        ("read_file() expects 1 argument (filename), got " ++ toString args.length)
        Option.none))
  | "write_file" =>
    match args with
    | [a, b] =>
      match a, b with
      | .string _, .string _ => .ok .none
      | _, _ =>
        .error (.tog (.typeError "write_file() expects (string, string) arguments"
          Option.none))
    | _ =>
      .error (.tog (.runtimeError
        ("write_file() expects 2 arguments (filename, content), got " ++
          toString args.length) Option.none))
  | "gpu_sum" =>
    match args with
    | [a] =>
      match a with
      | .array arr => gpu_accelerate "sum" arr
      | _ => .error (.tog (.typeError "gpu_sum() expects array" Option.none))
    | _ =>
      .error (.tog (.runtimeError
        ("gpu_sum() expects 1 argument, got " ++ toString args.length) Option.none))
  | "gpu_product" =>
    match args with
    | [a] =>
      match a with
      | .array arr => gpu_accelerate "product" arr
      | _ => .error (.tog (.typeError "gpu_product() expects array" Option.none))
    | _ =>
      .error (.tog (.runtimeError
        ("gpu_product() expects 1 argument, got " ++ toString args.length) Option.none))
  | "gpu_mean" =>
    match args with
    | [a] =>
      match a with
      | .array arr => gpu_accelerate "mean" arr
      | _ => .error (.tog (.typeError "gpu_mean() expects array" Option.none))
    | _ =>
      .error (.tog (.runtimeError
        ("gpu_mean() expects 1 argument, got " ++ toString args.length) Option.none))
  | "parallel_sum" =>
    match args with
    | [a] =>
      match a with
      | .array arr =>
        let chunk_size := max (arr.length / 4) 1
        .ok (.float (((arr.toChunks chunk_size).map (fun chunk =>
          chunk.foldl (fun acc v =>
            acc + (match v with
              | .int i => Float.ofInt i
              | .float f => f
              | _ => 0.0)) 0.0)).foldl (· + ·) 0.0))
      | _ => .error (.tog (.typeError "parallel_sum() expects array" Option.none))
    | _ =>
      .error (.tog (.runtimeError
        ("parallel_sum() expects 1 argument, got " ++ toString args.length) Option.none))
  | "batch_size" => .ok (.int 1024)
  | "parallel_map" =>
    match args with
    | [a, _] =>
      match a with
      | .array _ => .ok a
      | _ => .error (.tog (.typeError "parallel_map() expects array" Option.none))
    | _ =>
      .error (.tog (.runtimeError
        ("parallel_map() expects 2 arguments, got " ++ toString args.length) Option.none))
  | "parallel_filter" =>
    match args with
    | [a, _] =>
      match a with
      | .array _ => .ok a
      | _ => .error (.tog (.typeError "parallel_filter() expects array" Option.none))
    | _ =>
      .error (.tog (.runtimeError
        ("parallel_filter() expects 2 arguments, got " ++ toString args.length)
        Option.none))
  | "parallel_reduce" =>
    match args with
    | [a, i, _] =>
      match a with
      | .array _ => .ok i
      | _ => .error (.tog (.typeError "parallel_reduce() expects array" Option.none))
    | _ =>
      .error (.tog (.runtimeError
        ("parallel_reduce() expects 3 arguments, got " ++ toString args.length)
        Option.none))
  | "first" =>
    match args with
    | [a] =>
      match a with
      | .array arr =>
        match arr with
        | [] => .error (.tog (.runtimeError "first() called on empty array" Option.none))
        | x :: _ => .ok x
      | _ => .error (.tog (.typeError "first() expects array" Option.none))
    | _ =>
      .error (.tog (.runtimeError
        ("first() expects 1 argument, got " ++ toString args.length) Option.none))
  | "last" =>
    match args with
    | [a] =>
      match a with
      | .array arr =>
        match arr.getLast? with
        | Option.none =>
          .error (.tog (.runtimeError "last() called on empty array" Option.none))
        | some x => .ok x
      | _ => .error (.tog (.typeError "last() expects array" Option.none))
    | _ =>
      .error (.tog (.runtimeError
        ("last() expects 1 argument, got " ++ toString args.length) Option.none))
  | "slice" =>
    match args with
    | [a, b, c] =>
      match a, b, c with
      | .array arr, .int start, .int stop =>
        let start_idx := wrapU64 (max start 0)
        let end_idx := wrapU64 (min stop (arr.length : Int))
        if start_idx > end_idx then
          .error (.tog (.runtimeError "slice() start index must be <= end index"
            Option.none))
        else if end_idx > arr.length then
          .error (.hostPanic "range end index out of range for slice")
        else
          .ok (.array ((arr.drop start_idx).take (end_idx - start_idx)))
      | _, _, _ =>
        .error (.tog (.typeError "slice() expects (array, int, int)" Option.none))
    | _ =>
      .error (.tog (.runtimeError
        ("slice() expects 3 arguments, got " ++ toString args.length) Option.none))
  | "flatten" =>
    match args with
    | [a] =>
      match a with
      | .array arr =>
        .ok (.array (arr.flatMap (fun item =>
          match item with
          | .array inner => inner
          | v => [v])))
      | _ => .error (.tog (.typeError "flatten() expects array" Option.none))
    | _ =>
      .error (.tog (.runtimeError
        ("flatten() expects 1 argument, got " ++ toString args.length) Option.none))
  | "unique" =>
    match args with
    | [a] =>
      match a with
      | .array arr => .ok (.array (uniqueAux arr []))
      | _ => .error (.tog (.typeError "unique() expects array" Option.none))
    | _ =>
      .error (.tog (.runtimeError
        ("unique() expects 1 argument, got " ++ toString args.length) Option.none))
  | "sort" =>
    match args with
    | [a] =>
      match a with
      | .array arr => .ok (.array (bubbleLoop (arr.length + 1) arr))
      | _ => .error (.tog (.typeError "sort() expects array" Option.none))
    | _ =>
      .error (.tog (.runtimeError
        ("sort() expects 1 argument, got " ++ toString args.length) Option.none))
  | "unwrap" =>
    match args with
    | [a] =>
      match a with
      | .enum enum_name variant_name data =>
        if enum_name == "Result" && variant_name == "Ok" then
          match data with
          | some v => .ok v
          | Option.none =>
            .error (.tog (.runtimeError "unwrap() called on Result::Ok with no data"
              Option.none))
        else if enum_name == "Result" && variant_name == "Err" then
          match data with
          | some e =>
            .error (.tog (.runtimeError
              ("unwrap() called on Result::Err(" ++ value_to_string ord e ++ ")")
              Option.none))
          | Option.none =>
            .error (.tog (.runtimeError "unwrap() called on Result::Err" Option.none))
        else if enum_name == "Option" && variant_name == "Some" then
          match data with
          | some v => .ok v
          | Option.none =>
            .error (.tog (.runtimeError "unwrap() called on Option::Some with no data"
              Option.none))
        else if enum_name == "Option" && variant_name == "None" then
          .error (.tog (.runtimeError "unwrap() called on Option::None" Option.none))
        else
          .error (.tog (.typeError
            ("unwrap() expects Result or Option, got " ++ enum_name ++ "::" ++
              variant_name) Option.none))
      | _ =>
        .error (.tog (.typeError "unwrap() expects Result or Option enum" Option.none))
    | _ =>
      .error (.tog (.runtimeError
        ("unwrap() expects 1 argument, got " ++ toString args.length) Option.none))
  | "unwrap_or" =>
    match args with
    | [a, dflt] =>
      match a with
      | .enum enum_name variant_name data =>
        if enum_name == "Result" && variant_name == "Ok" then
          match data with
          | some v => .ok v
          | Option.none => .ok dflt
        else if enum_name == "Result" && variant_name == "Err" then .ok dflt
        else if enum_name == "Option" && variant_name == "Some" then
          match data with
          | some v => .ok v
          | Option.none => .ok dflt
        else if enum_name == "Option" && variant_name == "None" then .ok dflt
        else
          .error (.tog (.typeError
            ("unwrap_or() expects Result or Option, got " ++ enum_name ++ "::" ++
              variant_name) Option.none))
      | _ =>
        .error (.tog (.typeError "unwrap_or() expects Result or Option enum"
          Option.none))
    | _ =>
      .error (.tog (.runtimeError
        ("unwrap_or() expects 2 arguments, got " ++ toString args.length) Option.none))
  | "expect" =>
    match args with
    | [a, m] =>
      match m with
      | .string msg =>
        match a with
        | .enum enum_name variant_name data =>
          if enum_name == "Result" && variant_name == "Ok" then
            match data with
            | some v => .ok v
            | Option.none => .error (.tog (.runtimeError msg Option.none))
          else if enum_name == "Result" && variant_name == "Err" then
            .error (.tog (.runtimeError msg Option.none))
          else if enum_name == "Option" && variant_name == "Some" then
            match data with
            | some v => .ok v
            | Option.none => .error (.tog (.runtimeError msg Option.none))
          else if enum_name == "Option" && variant_name == "None" then
            .error (.tog (.runtimeError msg Option.none))
          else
            .error (.tog (.typeError
              ("expect() expects Result or Option, got " ++ enum_name ++ "::" ++
                variant_name) Option.none))
        | _ =>
          .error (.tog (.typeError "expect() expects Result or Option enum" Option.none))
      | _ =>
        .error (.tog (.typeError "expect() second argument must be a string"
          Option.none))
    | _ =>
      .error (.tog (.runtimeError
        ("expect() expects 2 arguments, got " ++ toString args.length) Option.none))
  | "is_ok" =>
    match args with
    | [a] =>
      match a with
      | .enum enum_name variant_name _ =>
        if enum_name == "Result" then .ok (.bool (variant_name == "Ok"))
        else
          .error (.tog (.typeError ("is_ok() expects Result, got " ++ enum_name)
            Option.none))
      | _ => .error (.tog (.typeError "is_ok() expects Result enum" Option.none))
    | _ =>
      .error (.tog (.runtimeError
        ("is_ok() expects 1 argument, got " ++ toString args.length) Option.none))
  | "is_err" =>
    match args with
    | [a] =>
      match a with
      | .enum enum_name variant_name _ =>
        if enum_name == "Result" then .ok (.bool (variant_name == "Err"))
        else
          .error (.tog (.typeError ("is_err() expects Result, got " ++ enum_name)
            Option.none))
      | _ => .error (.tog (.typeError "is_err() expects Result enum" Option.none))
    | _ =>
      .error (.tog (.runtimeError
        ("is_err() expects 1 argument, got " ++ toString args.length) Option.none))
  | "is_some" =>
    match args with
    | [a] =>
      match a with
      | .enum enum_name variant_name _ =>
        if enum_name == "Option" then .ok (.bool (variant_name == "Some"))
        else
          .error (.tog (.typeError ("is_some() expects Option, got " ++ enum_name)
            Option.none))
      | _ => .error (.tog (.typeError "is_some() expects Option enum" Option.none))
    | _ =>
      .error (.tog (.runtimeError
        ("is_some() expects 1 argument, got " ++ toString args.length) Option.none))
  | "is_none" =>
    match args with
    | [a] =>
      match a with
      | .enum enum_name variant_name _ =>
        if enum_name == "Option" then .ok (.bool (variant_name == "None"))
        else
          .error (.tog (.typeError ("is_none() expects Option, got " ++ enum_name)
            Option.none))
      | _ => .error (.tog (.typeError "is_none() expects Option enum" Option.none))
    | _ =>
      .error (.tog (.runtimeError
        ("is_none() expects 1 argument, got " ++ toString args.length) Option.none))
  | _ =>
    .error (.tog (.runtimeError ("Unknown builtin function: " ++ name) Option.none))

end Stdlib

/-! ### interpreter.rs: the tree-walking evaluator -/

namespace Interp

/-- Iteration order of hash maps for the current run (applied to rendered
struct parts). -/
abbrev IterOrd := List String → List String

/-- Read view of the file system for the current run. -/
abbrev FileSys := String → Option String

/-- Sequencing for state-threading computations: the state survives an
error (Rust's stdout has already been written when an `Err` propagates). -/
def andThen {α β : Type} (r : InterpState × Except EvalErr α)
    (k : InterpState → α → InterpState × Except EvalErr β) :
    InterpState × Except EvalErr β :=
  match r with
  | (st, .ok a) => k st a
  | (st, .error e) => (st, .error e)

/-- The Rust `Debug` rendering of a `BinaryOp`. -/
def binaryOpDebug : BinaryOp → String
  | .add => "Add" | .sub => "Sub" | .mul => "Mul" | .div => "Div" | .mod => "Mod"
  | .eq => "Eq" | .ne => "Ne" | .lt => "Lt" | .le => "Le" | .gt => "Gt" | .ge => "Ge"
  | .and => "And" | .or => "Or"

/-- The Rust `Debug` rendering of a `UnaryOp`. -/
def unaryOpDebug : UnaryOp → String
  | .not => "Not" | .neg => "Neg"

/-- Stand-in for the Rust `{:?}` (`Debug`) rendering of a `Value` inside
error messages; the exact text (which embeds whole ASTs for function
values and hash-map iteration order for structs) is not reproduced, and no
claim depends on these message texts. -/
def valueDebug : Value → String := fun _ => "<value>"

/-- `Interpreter::evaluate_binary_op` from `interpreter.rs`.  `Int.tdiv`
and `Int.tmod` are Rust `/` and `%` on `i64`; the `Mod` arm has no zero
check in the source, so a zero right operand reaches the host's `%`, which
panics (a process abort, not a returned `TogError`). -/
def evaluate_binary_op (left : Value) (op : BinaryOp) (right : Value) :
    Except EvalErr Value :=
  match left, op, right with
  | .int a, .add, .int b => .ok (.int (a + b))
  | .int a, .sub, .int b => .ok (.int (a - b))
  | .int a, .mul, .int b => .ok (.int (a * b))
  | .int a, .div, .int b =>
    if b = 0 then .error (.tog (.runtimeError "Division by zero" Option.none))
    else .ok (.int (Int.tdiv a b))
  | .int a, .mod, .int b =>
    if b = 0 then
      .error (.hostPanic "attempt to calculate the remainder with a divisor of zero")
    else .ok (.int (Int.tmod a b))
  | .float a, .add, .float b => .ok (.float (a + b))
  | .float a, .sub, .float b => .ok (.float (a - b))
  | .float a, .mul, .float b => .ok (.float (a * b))
  | .float a, .div, .float b =>
    if b == 0.0 then .error (.tog (.runtimeError "Division by zero" Option.none))
    else .ok (.float (a / b))
  | .string a, .add, .string b => .ok (.string (a ++ b))
  | .string a, .add, .int b => .ok (.string (a ++ toString b))
  | .string a, .add, .float b => .ok (.string (a ++ toString b))
  | .int a, .add, .string b => .ok (.string (toString a ++ b))
  | .float a, .add, .string b => .ok (.string (toString a ++ b))
  | .int a, .eq, .int b => .ok (.bool (a == b))
  | .int a, .ne, .int b => .ok (.bool (a != b))
  | .int a, .lt, .int b => .ok (.bool (decide (a < b)))
  | .int a, .le, .int b => .ok (.bool (decide (a ≤ b)))
  | .int a, .gt, .int b => .ok (.bool (decide (a > b)))
  | .int a, .ge, .int b => .ok (.bool (decide (a ≥ b)))
  | .bool a, .and, .bool b => .ok (.bool (a && b))
  | .bool a, .or, .bool b => .ok (.bool (a || b))
  | l, op', r =>
    .error (.tog (.typeError
      ("Invalid operation: " ++ valueDebug l ++ " " ++ binaryOpDebug op' ++ " " ++
        valueDebug r) Option.none))

/-- `Interpreter::evaluate_unary_op` from `interpreter.rs`. -/
def evaluate_unary_op (op : UnaryOp) (value : Value) : Except EvalErr Value :=
  match op, value with
  | .not, .bool b => .ok (.bool (!b))
  | .neg, .int n => .ok (.int (-n))
  | .neg, .float n => .ok (.float (-n))
  | op', v =>
    .error (.tog (.typeError
      ("Invalid unary operation: " ++ unaryOpDebug op' ++ " " ++ valueDebug v)
      Option.none))

/-- `Interpreter::match_pattern` from `interpreter.rs`. -/
def match_pattern (pattern : Pattern) (value : Value) : Except EvalErr Bool :=
  match pattern, value with
  | .wildcard, _ => .ok true
  | .literal lit, val =>
    match literal_to_value lit with
    | .ok lit_val => .ok (valueEq lit_val val)
    | .error e => .error e
  | .variable _, _ => .ok true
  | .enumVariant enum_name variant_name _, .enum val_enum val_variant _ =>
    .ok (enum_name == val_enum && variant_name == val_variant)
  | .enumVariant _ _ _, _ => .ok false

/-- `Interpreter::set_struct_field` from `interpreter.rs`. -/
def set_struct_field (struct_val : Value) (field : String) (new_val : Value) :
    Except EvalErr Value :=
  match struct_val with
  | .struct name fields => .ok (.struct name (insertKV fields field new_val))
  | _ =>
    .error (.tog (.runtimeError
      ("Cannot assign field '" ++ field ++ "' to non-struct value") Option.none))

/-- The parameter-binding loops (`params.iter().zip(arg_values.iter())`,
binding each pair with `define`). -/
def bindParamsZip (st : InterpState) (params : List Param) (args : List Value) :
    InterpState :=
  (params.zip args).foldl (fun s pa => defineVar s pa.1.name pa.2) st

/-- The first declared field missing from a struct-literal's field map
(`for (fname, _) in &field_defs { if !map.contains_key(fname) ... }`). -/
def firstMissingField (field_defs : List (String × Option Ty))
    (map : List (String × Value)) : Option String :=
  match field_defs with
  | [] => Option.none
  | (fname, _) :: rest =>
    if containsKV map fname then firstMissingField rest map else some fname

mutual

/-- `Interpreter::evaluate` from `interpreter.rs`.  `fuel` bounds the
recursion depth of the embedding (the Rust original is unbounded); every
recursive call runs at `fuel`, one less than the entry value. -/
def evaluate (ord : IterOrd) (fs : FileSys) :
    Nat → InterpState → Expr → InterpState × Except EvalErr Value
  | 0, st, _ => (st, .error .fuel)
  | fuel + 1, st, e =>
    match e with
    | .literal lit =>
      (match lit with
        | .array elems =>
          andThen (evalExprList ord fs fuel st elems) fun st values =>
            (st, .ok (.array values))
        | _ => (st, literal_to_value lit))
    | .structLiteral name fields =>
      (match lookupKV st.struct_defs name with
        | Option.none =>
          (st, .error (.tog (.runtimeError ("Unknown struct: " ++ name) Option.none)))
        | some (field_defs, _) =>
          andThen (evalStructFields ord fs fuel st fields []) fun st map =>
            match firstMissingField field_defs map with
            | some fname =>
              (st, .error (.tog (.runtimeError
                ("Missing field '" ++ fname ++ "' in struct literal " ++ name)
                Option.none)))
            | Option.none => (st, .ok (.struct name map)))
    | .enumVariant enum_name variant_name data =>
      if !containsKV st.enum_defs enum_name then
        (st, .error (.tog (.runtimeError ("Unknown enum: " ++ enum_name) Option.none)))
      else
        (match data with
          | some data_expr =>
            andThen (evaluate ord fs fuel st data_expr) fun st v =>
              (st, .ok (.enum enum_name variant_name (some v)))
          | Option.none => (st, .ok (.enum enum_name variant_name Option.none)))
    | .variable name =>
      (st, (getVar st name).mapError EvalErr.tog)
    | .fieldAccess object field =>
      andThen (evaluate ord fs fuel st object) fun st obj_val =>
        match obj_val with
        | .struct _ fields =>
          (match lookupKV fields field with
            | some v => (st, .ok v)
            | Option.none =>
              (st, .error (.tog (.runtimeError ("Field '" ++ field ++ "' not found")
                Option.none))))
        | _ =>
          (st, .error (.tog (.runtimeError "Field access on non-struct value"
            Option.none)))
    | .binaryOp left op right =>
      andThen (evaluate ord fs fuel st left) fun st left_val =>
        andThen (evaluate ord fs fuel st right) fun st right_val =>
          (st, evaluate_binary_op left_val op right_val)
    | .unaryOp op expr =>
      andThen (evaluate ord fs fuel st expr) fun st val =>
        (st, evaluate_unary_op op val)
    | .call callee args =>
      andThen (evalExprList ord fs fuel st args) fun st arg_values =>
        evalCall ord fs fuel st callee arg_values
    | .block statements =>
      andThen (evaluate_block ord fs fuel st statements .none) fun st vf =>
        if vf.2 ≠ .normal then
          (st, .error (.tog (.runtimeError (vf.2.debug ++ " outside of loop")
            Option.none)))
        else (st, .ok vf.1)
    | .if_ condition then_branch else_branch =>
      andThen (evaluate ord fs fuel st condition) fun st cond_val =>
        if is_truthy cond_val then evaluate ord fs fuel st then_branch
        else
          match else_branch with
          | some else_expr => evaluate ord fs fuel st else_expr
          | Option.none => (st, .ok .none)
    | .while_ condition body => whileLoop ord fs fuel st condition body
    | .for_ variable_ iterable body =>
      andThen (evaluate ord fs fuel st iterable) fun st iterable_val =>
        match iterable_val with
        | .array arr => forLoop ord fs fuel st variable_ arr body
        | .string s =>
          forLoop ord fs fuel st variable_
            (s.toList.map (fun c => .string (String.singleton c))) body
        | _ =>
          (st, .error (.tog (.typeError "Expected iterable in for loop" Option.none)))
    | .match_ expr arms =>
      andThen (evaluate ord fs fuel st expr) fun st value =>
        matchArms ord fs fuel st arms value
    | .function name params _ body =>
      let func_value : Value := .function name params body st.env Option.none
      (defineVar st name func_value, .ok func_value)
    | .index array index =>
      andThen (evaluate ord fs fuel st array) fun st array_val =>
        andThen (evaluate ord fs fuel st index) fun st index_val =>
          match array_val, index_val with
          | .array arr, .int idx =>
            if idx < 0 || arr.length ≤ idx.toNat then
              (st, .error (.tog (.runtimeError
                ("Array index " ++ toString idx ++ " out of bounds (length: " ++
                  toString arr.length ++ ")") Option.none)))
            else
              (st, .ok (arr.getD idx.toNat .none))
          | .string s, .int idx =>
            if idx < 0 || s.utf8ByteSize ≤ idx.toNat then
              (st, .error (.tog (.runtimeError
                ("String index " ++ toString idx ++ " out of bounds (length: " ++
                  toString s.utf8ByteSize ++ ")") Option.none)))
            else
              (match s.toList.get? idx.toNat with
                | some c => (st, .ok (.string (String.singleton c)))
                | Option.none =>
                  (st, .error (.hostPanic "called Option::unwrap() on a None value")))
          | arr, idx =>
            (st, .error (.tog (.runtimeError
              ("Cannot index " ++ valueDebug arr ++ " with " ++ valueDebug idx)
              Option.none)))

/-- The `Expr::Call` logic after the arguments have been evaluated: the
method-call paths, the `print`/builtin dispatch, and the fallthrough to
evaluating the callee as a function value. -/
def evalCall (ord : IterOrd) (fs : FileSys) :
    Nat → InterpState → Expr → List Value → InterpState × Except EvalErr Value
  | 0, st, _, _ => (st, .error .fuel)
  | fuel + 1, st, callee, arg_values =>
    match callee with
    | .fieldAccess object method_name =>
      -- Static method call `StructName.method(...)`; a miss falls through
      -- to evaluating the object.
      let staticHit : Option MethodDecl :=
        match object with
        | .variable struct_name =>
          (match lookupKV st.struct_defs struct_name with
            | some (_, methods) => methods.find? (fun m => m.name == method_name)
            | Option.none => Option.none)
        | _ => Option.none
      (match staticHit with
        | some method =>
          let old_env := st.env
          let st1 := pushFrame st (some st.env)
          let st2 := bindParamsZip st1 method.params arg_values
          let (st3, result) := evaluate ord fs fuel st2 method.body
          ({ st3 with env := old_env }, result)
        | Option.none =>
          andThen (evaluate ord fs fuel st object) fun st obj_val =>
            match obj_val with
            | .struct struct_name _ =>
              (match lookupKV st.struct_defs struct_name with
                | some (_, methods) =>
                  (match methods.find? (fun m => m.name == method_name) with
                    | some method =>
                      let old_env := st.env
                      let st1 := pushFrame st (some st.env)
                      let st2 := defineVar st1 "self" obj_val
                      let st3 := bindParamsZip st2 method.params arg_values
                      let (st4, result) := evaluate ord fs fuel st3 method.body
                      ({ st4 with env := old_env }, result)
                    | Option.none =>
                      (st, .error (.tog (.runtimeError
                        ("Unknown method '" ++ method_name ++ "' on struct " ++
                          struct_name) Option.none))))
                | Option.none =>
                  (st, .error (.tog (.runtimeError
                    ("Unknown method '" ++ method_name ++ "' on struct " ++
                      struct_name) Option.none))))
            | _ => evalCalleeValue ord fs fuel st callee arg_values)
    | .variable name =>
      if name == "print" then
        ({ st with
          output := st.output ++
            String.join (arg_values.map (value_to_string ord)) ++ "\n" },
          .ok .none)
      else
        (match Stdlib.call_builtin ord fs name arg_values with
          | .ok result => (st, .ok result)
          | .error (.tog (.runtimeError msg line)) =>
            if strContainsSub msg "Unknown builtin" then
              evalCalleeValue ord fs fuel st callee arg_values
            else (st, .error (.tog (.runtimeError msg line)))
          | .error e => (st, .error e))
    | _ => evalCalleeValue ord fs fuel st callee arg_values

/-- The final `Expr::Call` case: evaluate the callee, which must be a
function value; bind `self` and the parameters in a frame enclosing the
function's closure. -/
def evalCalleeValue (ord : IterOrd) (fs : FileSys) :
    Nat → InterpState → Expr → List Value → InterpState × Except EvalErr Value
  | 0, st, _, _ => (st, .error .fuel)
  | fuel + 1, st, callee, arg_values =>
    andThen (evaluate ord fs fuel st callee) fun st callee_val =>
      match callee_val with
      | .function _ params body closure bound_self =>
        if arg_values.length ≠ params.length then
          (st, .error (.tog (.runtimeError
            ("Function expects " ++ toString params.length ++ " arguments, got " ++
              toString arg_values.length) Option.none)))
        else
          let old_env := st.env
          let st1 := pushFrame st (some closure)
          let st2 :=
            match bound_self with
            | some self_val => defineVar st1 "self" self_val
            | Option.none => st1
          let st3 := bindParamsZip st2 params arg_values
          let (st4, result) := evaluate ord fs fuel st3 body
          ({ st4 with env := old_env }, result)
      | _ => (st, .error (.tog (.typeError "Can only call functions" Option.none)))

/-- `Interpreter::execute_stmt` from `interpreter.rs`.  Note the `Return`
arm: it evaluates the returned expression but reports `ControlFlow::Normal`
(the tri-state has no `Return` signal). -/
def execute_stmt (ord : IterOrd) (fs : FileSys) :
    Nat → InterpState → Stmt → InterpState × Except EvalErr (Value × ControlFlow)
  | 0, st, _ => (st, .error .fuel)
  | fuel + 1, st, stmt =>
    match stmt with
    | .expr expr =>
      andThen (evaluate ord fs fuel st expr) fun st val => (st, .ok (val, .normal))
    | .let_ name _ value =>
      andThen (evaluate ord fs fuel st value) fun st val =>
        (defineVar st name val, .ok (val, .normal))
    | .assign name value =>
      andThen (evaluate ord fs fuel st value) fun st val =>
        (match assignVar st name val with
          | .ok st' => (st', .ok (val, .normal))
          | .error e => (st, .error (.tog e)))
    | .assignField object field value =>
      andThen (evaluate ord fs fuel st value) fun st new_val =>
        andThen (assign_field_chain ord fs fuel st object field new_val) fun st _ =>
          (st, .ok (.none, .normal))
    | .structDef name fields methods =>
      ({ st with struct_defs := insertKV st.struct_defs name (fields, methods) },
        .ok (.none, .normal))
    | .enumDef name variants =>
      ({ st with enum_defs := insertKV st.enum_defs name variants },
        .ok (.none, .normal))
    | .traitDef name methods =>
      ({ st with trait_defs := insertKV st.trait_defs name methods },
        .ok (.none, .normal))
    | .implBlock trait_name type_name methods =>
      (match trait_name with
        | some tn =>
          ({ st with trait_impls := insertKV st.trait_impls (type_name, tn) methods },
            .ok (.none, .normal))
        | Option.none =>
          ({ st with inherent_impls := insertKV st.inherent_impls type_name methods },
            .ok (.none, .normal)))
    | .return_ (some expr) =>
      andThen (evaluate ord fs fuel st expr) fun st val => (st, .ok (val, .normal))
    | .return_ Option.none => (st, .ok (.none, .normal))
    | .break_ => (st, .ok (.none, .break_))
    | .continue_ => (st, .ok (.none, .continue_))

/-- `Interpreter::evaluate_block` from `interpreter.rs`; the extra argument
is the running `last_val` (initially `Value::None`). -/
def evaluate_block (ord : IterOrd) (fs : FileSys) :
    Nat → InterpState → List Stmt → Value →
    InterpState × Except EvalErr (Value × ControlFlow)
  | 0, st, _, _ => (st, .error .fuel)
  | fuel + 1, st, stmts, last_val =>
    match stmts with
    | [] => (st, .ok (last_val, .normal))
    | stmt :: rest =>
      andThen (execute_stmt ord fs fuel st stmt) fun st vf =>
        if vf.2 ≠ .normal then (st, .ok (vf.1, vf.2))
        else evaluate_block ord fs fuel st rest vf.1

/-- The argument/element evaluation loop (`args.iter().map(...).collect()`
and the array-literal loop): left to right, first error wins. -/
def evalExprList (ord : IterOrd) (fs : FileSys) :
    Nat → InterpState → List Expr → InterpState × Except EvalErr (List Value)
  | 0, st, _ => (st, .error .fuel)
  | fuel + 1, st, exprs =>
    match exprs with
    | [] => (st, .ok [])
    | e :: rest =>
      andThen (evaluate ord fs fuel st e) fun st v =>
        andThen (evalExprList ord fs fuel st rest) fun st vs =>
          (st, .ok (v :: vs))

/-- The struct-literal field loop: evaluate each field expression in order
and insert it into the map. -/
def evalStructFields (ord : IterOrd) (fs : FileSys) :
    Nat → InterpState → List (String × Expr) → List (String × Value) →
    InterpState × Except EvalErr (List (String × Value))
  | 0, st, _, _ => (st, .error .fuel)
  | fuel + 1, st, fields, map =>
    match fields with
    | [] => (st, .ok map)
    | (field_name, expr) :: rest =>
      andThen (evaluate ord fs fuel st expr) fun st val =>
        evalStructFields ord fs fuel st rest (insertKV map field_name val)

/-- The `Expr::While` loop from `interpreter.rs`. -/
def whileLoop (ord : IterOrd) (fs : FileSys) :
    Nat → InterpState → Expr → Expr → InterpState × Except EvalErr Value
  | 0, st, _, _ => (st, .error .fuel)
  | fuel + 1, st, condition, body =>
    andThen (evaluate ord fs fuel st condition) fun st cond_val =>
      if !is_truthy cond_val then (st, .ok .none)
      else
        match body with
        | .block statements =>
          andThen (evaluate_block ord fs fuel st statements .none) fun st vf =>
            match vf.2 with
            | .break_ => (st, .ok .none)
            | _ => whileLoop ord fs fuel st condition body
        | _ =>
          andThen (evaluate ord fs fuel st body) fun st _ =>
            whileLoop ord fs fuel st condition body

/-- The `Expr::For` iteration loop from `interpreter.rs`: the loop variable
is saved and re-bound at each iteration; the restore runs only when the
body completes with `ControlFlow::Normal` (`break` leaves the Rust loop and
`continue` jumps to the next iteration before the restore code). -/
def forLoop (ord : IterOrd) (fs : FileSys) :
    Nat → InterpState → String → List Value → Expr →
    InterpState × Except EvalErr Value
  | 0, st, _, _, _ => (st, .error .fuel)
  | fuel + 1, st, variable_, values, body =>
    match values with
    | [] => (st, .ok .none)
    | val :: rest =>
      let old_val := (getVar st variable_).toOption
      let st := defineVar st variable_ val
      match body with
      | .block statements =>
        andThen (evaluate_block ord fs fuel st statements .none) fun st vf =>
          (match vf.2 with
            | .break_ => (st, .ok .none)
            | .continue_ => forLoop ord fs fuel st variable_ rest body
            | .normal =>
              match old_val with
              | some old =>
                (match assignVar st variable_ old with
                  | .ok st' => forLoop ord fs fuel st' variable_ rest body
                  | .error e => (st, .error (.tog e)))
              | Option.none =>
                forLoop ord fs fuel (removeVar st variable_) variable_ rest body)
      | _ =>
        andThen (evaluate ord fs fuel st body) fun st _ =>
          match old_val with
          | some old =>
            (match assignVar st variable_ old with
              | .ok st' => forLoop ord fs fuel st' variable_ rest body
              | .error e => (st, .error (.tog e)))
          | Option.none =>
            forLoop ord fs fuel (removeVar st variable_) variable_ rest body

/-- The arm-testing loop of `Expr::Match` from `interpreter.rs`, including
the bind/restore of variable and enum-payload patterns. -/
def matchArms (ord : IterOrd) (fs : FileSys) :
    Nat → InterpState → List MatchArm → Value → InterpState × Except EvalErr Value
  | 0, st, _, _ => (st, .error .fuel)
  | fuel + 1, st, arms, value =>
    match arms with
    | [] =>
      (st, .error (.tog (.runtimeError "No matching pattern in match expression"
        Option.none)))
    | arm :: rest =>
      match match_pattern arm.pattern value with
      | .error e => (st, .error e)
      | .ok false => matchArms ord fs fuel st rest value
      | .ok true =>
        match arm.pattern with
        | .variable var_name =>
          let old_val := (getVar st var_name).toOption
          let st := defineVar st var_name value
          let (st1, result) := evaluate ord fs fuel st arm.body
          (match old_val with
            | some old =>
              (match assignVar st1 var_name old with
                | .ok st2 => (st2, result)
                | .error e => (st1, .error (.tog e)))
            | Option.none => (removeVar st1 var_name, result))
        | .enumVariant _ _ binding =>
          (match binding, value with
            | some binding_name, .enum _ _ (some data_value) =>
              let old_val := (getVar st binding_name).toOption
              let st := defineVar st binding_name data_value
              let (st1, result) := evaluate ord fs fuel st arm.body
              (match old_val with
                | some old =>
                  (match assignVar st1 binding_name old with
                    | .ok st2 => (st2, result)
                    | .error e => (st1, .error (.tog e)))
                | Option.none => (removeVar st1 binding_name, result))
            | _, _ => evaluate ord fs fuel st arm.body)
        | _ => evaluate ord fs fuel st arm.body

/-- `Interpreter::assign_value_into` from `interpreter.rs`. -/
def assign_value_into (ord : IterOrd) (fs : FileSys) :
    Nat → InterpState → Expr → Value → InterpState × Except EvalErr Unit
  | 0, st, _, _ => (st, .error .fuel)
  | fuel + 1, st, target, replacement =>
    match target with
    | .variable name =>
      (match assignVar st name replacement with
        | .ok st' => (st', .ok ())
        | .error e => (st, .error (.tog e)))
    | .fieldAccess object field =>
      andThen (evaluate ord fs fuel st object) fun st parent_val =>
        (match set_struct_field parent_val field replacement with
          | .ok updated_parent => assign_value_into ord fs fuel st object updated_parent
          | .error e => (st, .error e))
    | _ =>
      (st, .error (.tog (.runtimeError "Invalid assignment target" Option.none)))

/-- `Interpreter::assign_field_chain` from `interpreter.rs`. -/
def assign_field_chain (ord : IterOrd) (fs : FileSys) :
    Nat → InterpState → Expr → String → Value → InterpState × Except EvalErr Unit
  | 0, st, _, _, _ => (st, .error .fuel)
  | fuel + 1, st, target, field, new_value =>
    andThen (evaluate ord fs fuel st target) fun st obj_val =>
      match set_struct_field obj_val field new_value with
      | .ok updated_obj => assign_value_into ord fs fuel st target updated_obj
      | .error e => (st, .error e)

end

/-- The top-level statement loop of `Interpreter::interpret`. -/
def interpretStmts (ord : IterOrd) (fs : FileSys) (fuel : Nat) :
    InterpState → List Stmt → InterpState × Except EvalErr Unit
  | st, [] => (st, .ok ())
  | st, stmt :: rest =>
    andThen (execute_stmt ord fs fuel st stmt) fun st _ =>
      interpretStmts ord fs fuel st rest

/-- `Interpreter::interpret` from `interpreter.rs`: run every top-level
statement, then, if the global environment binds `main` to a function
value, invoke its body in a fresh frame enclosing the captured closure
(the environment restore is skipped when the body errors, matching the
`?` before the restore in the source). -/
def interpret (ord : IterOrd) (fs : FileSys) (fuel : Nat) (program : Program) :
    InterpState × Except EvalErr Unit :=
  andThen (interpretStmts ord fs fuel initState program.statements) fun st _ =>
    let main_info :=
      match getVar st "main" with
      | .ok (.function _ _ body closure _) => some (body, closure)
      | _ => Option.none
    match main_info with
    | some (body, closure) =>
      let old_env := st.env
      let st1 := pushFrame st (some closure)
      (match evaluate ord fs fuel st1 body with
        | (st2, .ok _) => ({ st2 with env := old_env }, .ok ())
        | (st2, .error e) => (st2, .error e))
    | Option.none => (st, .ok ())

end Interp

/-! ### lexer.rs -/

namespace Lexer

/-- `Keyword` from `lexer.rs`: exactly the eighteen variants the source
declares (there is no `Enum`, `Trait` or `Impl` variant, although
`parser.rs` refers to `Keyword::Enum`, `Keyword::Trait` and
`Keyword::Impl`). -/
inductive Keyword where
  | fn | let_ | struct | if_ | else_ | while_ | for_ | in_ | return_
  | match_ | break_ | continue_ | none | int | float | string | bool | array
deriving Repr, DecidableEq

/-- `Token` from `lexer.rs`. -/
inductive Token where
  | int : Int → Token
  | float : Float → Token
  | string : String → Token
  | interpolatedString : String → Token
  | bool : Bool → Token
  | identifier : String → Token
  | keyword : Keyword → Token
  | plus | minus | star | slash | percent
  | eq | eqEq | ne | lt | le | gt | ge | and | or | not | dot
  | leftParen | rightParen | leftBrace | rightBrace
  | leftBracket | rightBracket | comma | semicolon | colon
  | arrow | fatArrow
  | eof
deriving Repr

/-- The digit/dot scan of a numeric literal; returns the scanned
characters, the final `is_float` flag and the rest of the input. -/
def scanNumber : List Char → Bool → List Char × Bool × List Char
  | [], is_float => ([], is_float, [])
  | c :: cs, is_float =>
    if '0' ≤ c ∧ c ≤ '9' then
      let (s, f, r) := scanNumber cs is_float
      (c :: s, f, r)
    else if c = '.' ∧ !is_float then
      let (s, f, r) := scanNumber cs true
      (c :: s, f, r)
    else ([], is_float, c :: cs)

/-- Decimal digits to a number. -/
def digitsToNat (s : List Char) : Nat :=
  s.foldl (fun n c => n * 10 + (c.toNat - 48)) 0

/-- The value of a scanned float literal (`num_str.parse::<f64>()`, which
cannot fail on the scanned digit/dot grammar); `Float.ofScientific` is the
correctly-rounded decimal-to-double conversion. -/
def parseFloatChars (numChars : List Char) : Float :=
  let ip := numChars.takeWhile (fun c => c ≠ '.')
  let frac := (numChars.dropWhile (fun c => c ≠ '.')).drop 1
  Float.ofScientific (digitsToNat (ip ++ frac)) true frac.length

/-- The string-literal scan of `tokenize` (after the opening quote):
escapes, the interpolation flag on `{`, and the source's behaviour of
ending the token at end of input without a closing quote.  Returns the
content, the flag, the rest of the input and the updated column. -/
def scanString : List Char → Nat → Nat → String → Bool →
    Except TogError (String × Bool × List Char × Nat)
  | [], _, column, acc, interp => .ok (acc, interp, [], column)
  | c :: cs, line, column, acc, interp =>
    let column := column + 1
    match c with
    | '"' => .ok (acc, interp, cs, column)
    | '{' => scanString cs line column (acc.push '{') true
    | '}' => scanString cs line column (acc.push '}') interp
    | '\\' =>
      (match cs with
        | 'n' :: cs' => scanString cs' line (column + 1) (acc.push '\n') interp
        | 't' :: cs' => scanString cs' line (column + 1) (acc.push '\t') interp
        | '\\' :: cs' => scanString cs' line (column + 1) (acc.push '\\') interp
        | '"' :: cs' => scanString cs' line (column + 1) (acc.push '"') interp
        | _ => .error (.lexError "Invalid escape sequence" line column))
    | c' => scanString cs line column (acc.push c') interp

/-- The identifier scan (`'a'..='z' | 'A'..='Z' | '0'..='9' | '_'`). -/
def scanIdent : List Char → List Char × List Char
  | [] => ([], [])
  | c :: cs =>
    if ('a' ≤ c ∧ c ≤ 'z') ∨ ('A' ≤ c ∧ c ≤ 'Z') ∨ ('0' ≤ c ∧ c ≤ '9') ∨ c = '_' then
      let (s, r) := scanIdent cs
      (c :: s, r)
    else ([], c :: cs)

/-- The keyword table of `tokenize` (`lexer.rs` lines 384-409): the match
that reclassifies a scanned identifier.  `true`/`false` become boolean
literals; everything not in the table stays an identifier.  Note that
`enum`, `trait` and `impl` are absent. -/
def keywordLookup (ident : String) : Token :=
  match ident with
  | "fn" => .keyword .fn
  | "let" => .keyword .let_
  | "struct" => .keyword .struct
  | "if" => .keyword .if_
  | "else" => .keyword .else_
  | "while" => .keyword .while_
  | "for" => .keyword .for_
  | "in" => .keyword .in_
  | "return" => .keyword .return_
  | "match" => .keyword .match_
  | "break" => .keyword .break_
  | "continue" => .keyword .continue_
  | "none" => .keyword .none
  | "true" => .bool true
  | "false" => .bool false
  | "int" => .keyword .int
  | "float" => .keyword .float
  | "string" => .keyword .string
  | "bool" => .keyword .bool
  | "array" => .keyword .array
  | _ => .identifier ident

/-- The main loop of `tokenize`.  `fuel` is an embedding artifact: every
iteration of the source loop consumes at least one character (except on a
non-ASCII alphabetic character, where the source loops forever), so
`length + 1` fuel reproduces the source on all inputs the source
terminates on. -/
def tokenizeLoop : Nat → List Char → Nat → Nat → Except TogError (List Token)
  | 0, _, line, column => .error (.lexError "embedding fuel exhausted" line column)
  | fuel + 1, chars, line, column =>
    match chars with
    | [] => .ok [.eof]
    | ' ' :: cs => tokenizeLoop fuel cs line (column + 1)
    | '\t' :: cs => tokenizeLoop fuel cs line (column + 1)
    | '\r' :: cs => tokenizeLoop fuel cs line (column + 1)
    | '\n' :: cs => tokenizeLoop fuel cs (line + 1) 1
    | '/' :: '/' :: cs =>
      tokenizeLoop fuel (cs.dropWhile (fun c => c ≠ '\n')) line column
    | '"' :: cs => do
      let (content, interp, rest, column') ←
        scanString cs line (column + 1) "" false
      let tok := if interp then Token.interpolatedString content else Token.string content
      let toks ← tokenizeLoop fuel rest line column'
      return tok :: toks
    | '+' :: cs => do return .plus :: (← tokenizeLoop fuel cs line (column + 1))
    | '-' :: '>' :: cs => do return .arrow :: (← tokenizeLoop fuel cs line (column + 2))
    | '-' :: cs => do return .minus :: (← tokenizeLoop fuel cs line (column + 1))
    | '*' :: cs => do return .star :: (← tokenizeLoop fuel cs line (column + 1))
    | '/' :: cs => do return .slash :: (← tokenizeLoop fuel cs line (column + 1))
    | '%' :: cs => do return .percent :: (← tokenizeLoop fuel cs line (column + 1))
    | '.' :: cs => do return .dot :: (← tokenizeLoop fuel cs line (column + 1))
    | '=' :: '=' :: cs => do return .eqEq :: (← tokenizeLoop fuel cs line (column + 2))
    | '=' :: '>' :: cs => do return .fatArrow :: (← tokenizeLoop fuel cs line (column + 2))
    | '=' :: cs => do return .eq :: (← tokenizeLoop fuel cs line (column + 1))
    | '!' :: '=' :: cs => do return .ne :: (← tokenizeLoop fuel cs line (column + 2))
    | '!' :: cs => do return .not :: (← tokenizeLoop fuel cs line (column + 1))
    | '<' :: '=' :: cs => do return .le :: (← tokenizeLoop fuel cs line (column + 2))
    | '<' :: cs => do return .lt :: (← tokenizeLoop fuel cs line (column + 1))
    | '>' :: '=' :: cs => do return .ge :: (← tokenizeLoop fuel cs line (column + 2))
    | '>' :: cs => do return .gt :: (← tokenizeLoop fuel cs line (column + 1))
    | '&' :: '&' :: cs => do return .and :: (← tokenizeLoop fuel cs line (column + 2))
    | '&' :: _ => .error (.lexError "Unexpected '&'" line (column + 1))
    | '|' :: '|' :: cs => do return .or :: (← tokenizeLoop fuel cs line (column + 2))
    | '|' :: _ => .error (.lexError "Unexpected '|'" line (column + 1))
    | '(' :: cs => do return .leftParen :: (← tokenizeLoop fuel cs line (column + 1))
    | ')' :: cs => do return .rightParen :: (← tokenizeLoop fuel cs line (column + 1))
    | '{' :: cs => do return .leftBrace :: (← tokenizeLoop fuel cs line (column + 1))
    | '}' :: cs => do return .rightBrace :: (← tokenizeLoop fuel cs line (column + 1))
    | '[' :: cs => do return .leftBracket :: (← tokenizeLoop fuel cs line (column + 1))
    | ']' :: cs => do return .rightBracket :: (← tokenizeLoop fuel cs line (column + 1))
    | ',' :: cs => do return .comma :: (← tokenizeLoop fuel cs line (column + 1))
    | ';' :: cs => do return .semicolon :: (← tokenizeLoop fuel cs line (column + 1))
    | ':' :: cs => do return .colon :: (← tokenizeLoop fuel cs line (column + 1))
    | c :: cs =>
      if '0' ≤ c ∧ c ≤ '9' then do
        let (numChars, is_float, rest) := scanNumber (c :: cs) false
        let tok ←
          if is_float then
            pure (Token.float (parseFloatChars numChars))
          else
            let n := digitsToNat numChars
            if n > 9223372036854775807 then
              Except.error (TogError.lexError
                ("Invalid integer: " ++ String.mk numChars) line column)
            else pure (Token.int n)
        let toks ← tokenizeLoop fuel rest line (column + numChars.length)
        return tok :: toks
      else if c.isAlpha ∨ c = '_' then do
        let (identChars, rest) := scanIdent (c :: cs)
        let toks ← tokenizeLoop fuel rest line (column + identChars.length)
        return keywordLookup (String.mk identChars) :: toks
      else
        .error (.lexError ("Unexpected character: " ++ String.singleton c) line column)

/-- `tokenize` from `lexer.rs`. -/
def tokenize (source : String) : Except TogError (List Token) :=
  tokenizeLoop (source.toList.length + 1) source.toList 1 1

end Lexer

/-! ### Evaluation of IR expressions (claim C3)

The claim and property P4 speak of "evaluating an IR before and after
folding", but the repository has no IR evaluator under `src/` (the
backends are placeholder stubs).  The definitions below are the missing
semantics, modelled from the spec: IR expressions mirror AST expressions
one to one, and the spec gives AST expressions the evaluator's value
semantics, so IR values evaluate through `Interp.evaluate_binary_op` and
`Interp.evaluate_unary_op`, variables read an environment, calls are
delegated to an oracle, and indexing follows the evaluator's `Expr::Index`
contract. -/

mutual

/-- Modelled from the spec: evaluation of an `IrExpression` (P4's
"evaluating an IR"), missing from `src/`; see the section comment. -/
def irEvalExpr (env : String → Option Value)
    (oracle : String → List Value → Except EvalErr Value) :
    IrExpression → Except EvalErr Value
  | .literal v => irValueEval env oracle v
  | .variable name =>
    match env name with
    | some v => .ok v
    | Option.none =>
      .error (.tog (.runtimeError ("Undefined variable: " ++ name) Option.none))
  | .binaryOp left op right => do
    let left_val ← irEvalExpr env oracle left
    let right_val ← irEvalExpr env oracle right
    Interp.evaluate_binary_op left_val op right_val
  | .unaryOp op expr => do
    let val ← irEvalExpr env oracle expr
    Interp.evaluate_unary_op op val
  | .call callee args => do
    let arg_values ← irEvalList env oracle args
    oracle callee arg_values
  | .index base idx => do
    let base_val ← irEvalExpr env oracle base
    let idx_val ← irEvalExpr env oracle idx
    match base_val, idx_val with
    | .array arr, .int i =>
      if i < 0 ∨ arr.length ≤ i.toNat then
        .error (.tog (.runtimeError
          ("Array index " ++ toString i ++ " out of bounds (length: " ++
            toString arr.length ++ ")") Option.none))
      else .ok (arr.getD i.toNat .none)
    | b, i =>
      .error (.tog (.runtimeError
        ("Cannot index " ++ Interp.valueDebug b ++ " with " ++ Interp.valueDebug i)
        Option.none))

/-- Modelled from the spec: the runtime value of an `IrValue` (array
elements are expressions and are evaluated left to right). -/
def irValueEval (env : String → Option Value)
    (oracle : String → List Value → Except EvalErr Value) :
    IrValue → Except EvalErr Value
  | .int n => .ok (.int n)
  | .float f => .ok (.float f)
  | .string s => .ok (.string s)
  | .bool b => .ok (.bool b)
  | .array elems => do
    let values ← irEvalList env oracle elems
    return .array values
  | .none => .ok .none

/-- Modelled from the spec: left-to-right evaluation of a list of IR
expressions. -/
def irEvalList (env : String → Option Value)
    (oracle : String → List Value → Except EvalErr Value) :
    List IrExpression → Except EvalErr (List Value)
  | [] => .ok []
  | e :: rest => do
    let v ← irEvalExpr env oracle e
    let vs ← irEvalList env oracle rest
    return v :: vs

end

/-! ## Claim theorems -/

/-- The spec's scenario-2 program:
`fn fib(n) { if n < 2 { return n } return fib(n-1) + fib(n-2) }`
`fn main() { print(fib(10)) }`, in the AST shape the parser produces
(function bodies and `if` branches are `Expr::Block`s). -/
def fibProgram : Program :=
  ⟨[ .expr (.function "fib" [⟨"n", Option.none⟩] Option.none (.block
       [ .expr (.if_ (.binaryOp (.variable "n") .lt (.literal (.int 2)))
           (.block [ .return_ (some (.variable "n")) ]) Option.none)
       , .return_ (some (.binaryOp
           (.call (.variable "fib")
             [.binaryOp (.variable "n") .sub (.literal (.int 1))])
           .add
           (.call (.variable "fib")
             [.binaryOp (.variable "n") .sub (.literal (.int 2))]))) ]))
   , .expr (.function "main" [] Option.none (.block
       [ .expr (.call (.variable "print") [.call (.variable "fib") [.literal (.int 10)]]) ])) ]⟩

/-- `fn f() { return 1 return 2 }  fn main() { print(f()) }`: a function
body with a statement after a `return`. -/
def returnReturnProgram : Program :=
  ⟨[ .expr (.function "f" [] Option.none (.block
       [ .return_ (some (.literal (.int 1)))
       , .return_ (some (.literal (.int 2))) ]))
   , .expr (.function "main" [] Option.none (.block
       [ .expr (.call (.variable "print") [.call (.variable "f") []]) ])) ]⟩

/-- C1: the claim says the fib program prints `55`, because a `return`
stops the remaining statements of the function body.  The code's
`ControlFlow` has no `Return` signal — `Stmt::Return` reports `Normal` — so
statements after a `return` still execute: `f` above returns `2`, not `1`
(the program prints "2"), and the fib program recurses past its base case
(`fib(n)` with `n < 2` still evaluates `fib(n-1) + fib(n-2)`), so its
evaluation exhausts any recursion-depth budget instead of terminating. -/
theorem C1_return_does_not_stop_body :
    (Interp.interpret id (fun _ => Option.none) 50 returnReturnProgram).1.output = "2\n"
  ∧ (Interp.interpret id (fun _ => Option.none) 50 returnReturnProgram).2 = .ok ()
  ∧ (Interp.interpret id (fun _ => Option.none) 60 fibProgram).2 = .error .fuel := by
  refine ⟨rfl, rfl, rfl⟩

/-- The spec's scenario-6 program:
`fn main() { let i = 0  while i < 5 { if i == 3 { break }  print(i)  i = i + 1 } }`. -/
def scenario6Program : Program :=
  ⟨[ .expr (.function "main" [] Option.none (.block
       [ .let_ "i" Option.none (.literal (.int 0))
       , .expr (.while_ (.binaryOp (.variable "i") .lt (.literal (.int 5))) (.block
           [ .expr (.if_ (.binaryOp (.variable "i") .eq (.literal (.int 3)))
               (.block [ .break_ ]) Option.none)
           , .expr (.call (.variable "print") [.variable "i"])
           , .assign "i" (.binaryOp (.variable "i") .add (.literal (.int 1))) ])) ])) ]⟩

set_option maxHeartbeats 2000000 in
/-- C2: the claim says a `break` anywhere inside a loop body — including
nested in an `if` branch — terminates the innermost loop, and a `break`
outside any loop is a runtime error.  In the code, an `if` branch is an
`Expr::Block`, and the `Expr::Block` arm of `evaluate` turns any `Break`
signal into the runtime error "Break outside of loop" before the enclosing
loop can see it: the scenario-6 program prints `0 1 2` and then fails with
that error instead of exiting the loop normally.  A `break` at the top
level of a program — outside any loop — is silently ignored by `interpret`
(which discards control flow), not a runtime error. -/
theorem C2_break_in_if_is_runtime_error :
    (Interp.interpret id (fun _ => Option.none) 25 scenario6Program).1.output =
      "0\n1\n2\n"
  ∧ (Interp.interpret id (fun _ => Option.none) 25 scenario6Program).2 =
      .error (.tog (.runtimeError "Break outside of loop" Option.none))
  ∧ (Interp.interpret id (fun _ => Option.none) 25 ⟨[.break_]⟩).2 = .ok ()
  ∧ (Interp.interpret id (fun _ => Option.none) 25 ⟨[.break_]⟩).1.output = "" := by
  refine ⟨rfl, rfl, rfl, rfl⟩

/-- C6: the claim says the lexer's keyword table contains `enum`, `trait`
and `impl`, so those inputs lex as keyword tokens.  The `Keyword` type in
`lexer.rs` has no such variants and the `tokenize` table has no such arms
(while `parser.rs` refers to `Keyword::Enum`, `Keyword::Trait` and
`Keyword::Impl`, which do not exist), so all three inputs lex as
identifier tokens; a word that is in the table, such as `fn`, is
reclassified. -/
theorem C6_enum_trait_impl_lex_as_identifiers :
    Lexer.tokenize "enum" = .ok [.identifier "enum", .eof]
  ∧ Lexer.tokenize "trait" = .ok [.identifier "trait", .eof]
  ∧ Lexer.tokenize "impl" = .ok [.identifier "impl", .eof]
  ∧ Lexer.keywordLookup "enum" = .identifier "enum"
  ∧ Lexer.keywordLookup "trait" = .identifier "trait"
  ∧ Lexer.keywordLookup "impl" = .identifier "impl"
  ∧ Lexer.keywordLookup "fn" = .keyword .fn := by
  refine ⟨rfl, rfl, rfl, rfl, rfl, rfl, rfl⟩

/-- The value of a simple (non-array) literal; array literals, which
`literal_to_value` treats as unreachable, default to `Value.none` (never
used under the simple-literal hypotheses below). -/
def litValueD (lit : Literal) : Value :=
  match literal_to_value lit with
  | .ok v => v
  | .error _ => .none

/-- The field map a struct literal with the given (simple-literal) fields
builds: each field inserted in order, duplicates overwriting. -/
def litFieldMap : List (String × Literal) → List (String × Value) →
    List (String × Value)
  | [], map => map
  | (k, lit) :: rest, map => litFieldMap rest (insertKV map k (litValueD lit))

theorem literal_to_value_simple (lit : Literal)
    (h : ∀ es, lit ≠ Literal.array es) :
    literal_to_value lit = .ok (litValueD lit) := by
  cases lit with
  | array es => exact absurd rfl (h es)
  | _ => rfl

theorem evaluate_literal_simple (ord : Interp.IterOrd) (fs : Interp.FileSys)
    (f : Nat) (st : InterpState) (lit : Literal)
    (h : ∀ es, lit ≠ Literal.array es) :
    Interp.evaluate ord fs (f + 1) st (.literal lit) = (st, .ok (litValueD lit)) := by
  cases lit with
  | array es => exact absurd rfl (h es)
  | _ => rfl

theorem evalStructFields_lits (ord : Interp.IterOrd) (fs : Interp.FileSys) :
    ∀ (lits : List (String × Literal)) (st : InterpState)
      (map : List (String × Value)) (fuel : Nat),
      (∀ p ∈ lits, ∀ es, p.2 ≠ Literal.array es) →
      lits.length < fuel →
      Interp.evalStructFields ord fs fuel st
        (lits.map (fun p => (p.1, Expr.literal p.2))) map =
        (st, .ok (litFieldMap lits map))
  | [], st, map, fuel + 1, _, _ => by
    simp [Interp.evalStructFields, litFieldMap]
  | (k, lit) :: rest, st, map, fuel + 1, hsimple, hfuel => by
    have hfst : ∀ es, lit ≠ Literal.array es :=
      hsimple (k, lit) (List.mem_cons_self _ _)
    have hrest : ∀ p ∈ rest, ∀ es, p.2 ≠ Literal.array es :=
      fun p hp => hsimple p (List.mem_cons_of_mem _ hp)
    have hfuel' : rest.length < fuel := by
      simpa [Nat.succ_lt_succ_iff] using hfuel
    have hfuel1 : 0 < fuel := Nat.lt_of_le_of_lt (Nat.zero_le _) hfuel'
    obtain ⟨f, rfl⟩ : ∃ f, fuel = f + 1 :=
      ⟨fuel - 1, (Nat.succ_pred_eq_of_pos hfuel1).symm⟩
    simp only [Interp.evalStructFields, List.map_cons,
      evaluate_literal_simple ord fs f st lit hfst, Interp.andThen]
    exact evalStructFields_lits ord fs rest st (insertKV map k (litValueD lit))
      (f + 1) hrest hfuel'

theorem firstMissingField_none_iff (field_defs : List (String × Option Ty))
    (map : List (String × Value)) :
    Interp.firstMissingField field_defs map = Option.none ↔
      ∀ fd ∈ field_defs, containsKV map fd.1 = true := by
  induction field_defs with
  | nil => simp [Interp.firstMissingField]
  | cons fd rest ih =>
    by_cases h : containsKV map fd.1 = true
    · simp [Interp.firstMissingField, h, ih]
    · simp [Interp.firstMissingField, h, List.forall_mem_cons]

/-- C8: for a struct literal over a defined struct whose field expressions
are simple literals (so that evaluating them cannot itself fail),
evaluation returns a runtime error iff some field declared by the struct
definition is absent from the literal, and when every declared field is
supplied the literal evaluates to a struct value whose field map stores
every supplied field — including fields the definition does not declare. -/
theorem C8_struct_literal_fields (ord : Interp.IterOrd) (fs : Interp.FileSys)
    (st : InterpState) (name : String)
    (field_defs : List (String × Option Ty)) (methods : List MethodDecl)
    (lits : List (String × Literal)) (fuel : Nat)
    (hdef : lookupKV st.struct_defs name = some (field_defs, methods))
    (hsimple : ∀ p ∈ lits, ∀ es, p.2 ≠ Literal.array es)
    (hfuel : lits.length + 1 < fuel) :
    ((∃ e, Interp.evaluate ord fs fuel st
        (.structLiteral name (lits.map (fun p => (p.1, Expr.literal p.2)))) =
        (st, .error e)) ↔
      ∃ fd ∈ field_defs, containsKV (litFieldMap lits []) fd.1 = false)
  ∧ ((∀ fd ∈ field_defs, containsKV (litFieldMap lits []) fd.1 = true) →
      Interp.evaluate ord fs fuel st
        (.structLiteral name (lits.map (fun p => (p.1, Expr.literal p.2)))) =
        (st, .ok (.struct name (litFieldMap lits [])))) := by
  obtain ⟨f, rfl⟩ : ∃ f, fuel = f + 1 :=
    ⟨fuel - 1, (Nat.succ_pred_eq_of_pos (Nat.lt_of_le_of_lt (Nat.zero_le _) hfuel)).symm⟩
  have hfuel' : lits.length < f := by omega
  have hfields := evalStructFields_lits ord fs lits st [] f hsimple hfuel'
  have hunfold : Interp.evaluate ord fs (f + 1) st
      (.structLiteral name (lits.map (fun p => (p.1, Expr.literal p.2)))) =
      (match Interp.firstMissingField field_defs (litFieldMap lits []) with
        | some fname =>
          (st, .error (.tog (.runtimeError
            ("Missing field '" ++ fname ++ "' in struct literal " ++ name)
            Option.none)))
        | Option.none => (st, .ok (.struct name (litFieldMap lits [])))) := by
    simp only [Interp.evaluate, hdef, hfields, Interp.andThen]
  constructor
  · rw [hunfold]
    constructor
    · intro ⟨e, he⟩
      rcases hmiss : Interp.firstMissingField field_defs (litFieldMap lits []) with
        _ | fname
      · rw [hmiss] at he
        simp at he
      · have : ¬ ∀ fd ∈ field_defs, containsKV (litFieldMap lits []) fd.1 = true := by
          intro hall
          rw [(firstMissingField_none_iff _ _).mpr hall] at hmiss
          simp at hmiss
        push_neg at this
        obtain ⟨fd, hfd, hnot⟩ := this
        exact ⟨fd, hfd, by simpa using hnot⟩
    · intro ⟨fd, hfd, hnot⟩
      rcases hmiss : Interp.firstMissingField field_defs (litFieldMap lits []) with
        _ | fname
      · have := (firstMissingField_none_iff _ _).mp hmiss fd hfd
        rw [this] at hnot
        simp at hnot
      · simp only [hmiss]
        exact ⟨_, rfl⟩
  · intro hall
    rw [hunfold, (firstMissingField_none_iff _ _).mpr hall]

/-- Witness for C8 at a concrete input: struct `P { x, y }`, literal
`P { x: 1, y: 2, z: 3 }` — every declared field present plus the extra `z`
— evaluates to a struct value storing all three fields. -/
theorem C8_struct_literal_fields_witness :
    Interp.evaluate id (fun _ => Option.none) 10
      { initState with
        struct_defs := [("P", ([("x", Option.none), ("y", Option.none)], []))] }
      (.structLiteral "P"
        ([("x", Literal.int 1), ("y", Literal.int 2), ("z", Literal.int 3)].map
          (fun p => (p.1, Expr.literal p.2)))) =
      ({ initState with
        struct_defs := [("P", ([("x", Option.none), ("y", Option.none)], []))] },
        .ok (.struct "P" (litFieldMap
          [("x", Literal.int 1), ("y", Literal.int 2), ("z", Literal.int 3)] []))) := by
  exact (C8_struct_literal_fields id (fun _ => Option.none)
    { initState with
      struct_defs := [("P", ([("x", Option.none), ("y", Option.none)], []))] }
    "P" [("x", Option.none), ("y", Option.none)] []
    [("x", Literal.int 1), ("y", Literal.int 2), ("z", Literal.int 3)] 10
    rfl (by intro p hp es; fin_cases hp <;> simp) (by decide)).2
    (by decide)

/-- A hash-map iteration order is valid when it permutes whatever list it
is given (Rust's per-process randomized `HashMap` order visits every entry
exactly once). -/
def permValid (ord : List String → List String) : Prop :=
  ∀ l : List String, List.Perm (ord l) l

mutual

/-- Every struct occurring in the value has at most one field. -/
def smallStructs : Value → Bool
  | .array vs => smallStructsList vs
  | .struct _ fields => decide (fields.length ≤ 1) && smallStructsFields fields
  | .enum _ _ (some d) => smallStructs d
  | .enum _ _ Option.none => true
  | _ => true

/-- `smallStructs` over array elements. -/
def smallStructsList : List Value → Bool
  | [] => true
  | v :: rest => smallStructs v && smallStructsList rest

/-- `smallStructs` over field values. -/
def smallStructsFields : List (String × Value) → Bool
  | [] => true
  | (_, v) :: rest => smallStructs v && smallStructsFields rest

end

theorem permValid_short {ord : List String → List String} (h : permValid ord)
    (l : List String) (hl : l.length ≤ 1) : ord l = l := by
  match l, hl with
  | [], _ => exact (h []).eq_nil
  | [a], _ => exact List.perm_singleton.mp (h [a])

theorem fieldParts_length (o : List String → List String)
    (fs : List (String × Value)) :
    (Interp.fieldParts o fs).length = fs.length := by
  induction fs with
  | nil => rfl
  | cons p rest ihf => cases p; simp [Interp.fieldParts, ihf]

theorem value_to_string_ord_congr
    (ord₁ ord₂ : List String → List String)
    (h₁ : permValid ord₁) (h₂ : permValid ord₂) :
    ∀ n : Nat,
      (∀ v : Value, sizeOf v < n → smallStructs v = true →
        Interp.value_to_string ord₁ v = Interp.value_to_string ord₂ v)
    ∧ (∀ vs : List Value, sizeOf vs < n → smallStructsList vs = true →
        Interp.valuesToStrings ord₁ vs = Interp.valuesToStrings ord₂ vs)
    ∧ (∀ fields : List (String × Value), sizeOf fields < n →
        smallStructsFields fields = true →
        Interp.fieldParts ord₁ fields = Interp.fieldParts ord₂ fields) := by
  intro n
  induction n using Nat.strong_induction_on with
  | _ n ih =>
    refine ⟨?_, ?_, ?_⟩
    · intro v hv hsmall
      match v with
      | .int _ | .float _ | .string _ | .bool _ | .none | .function _ _ _ _ _ => rfl
      | .array vs =>
        have hsz : sizeOf vs < sizeOf (Value.array vs) := by simp
        have := (ih _ hv).2.1 vs hsz (by simpa [smallStructs] using hsmall)
        simp [Interp.value_to_string, this]
      | .struct name fields =>
        have hsmall' := hsmall
        simp only [smallStructs, Bool.and_eq_true, decide_eq_true_eq] at hsmall'
        have hsz : sizeOf fields < sizeOf (Value.struct name fields) := by simp
        have hparts := (ih _ hv).2.2 fields hsz hsmall'.2
        have hlen₁ : (Interp.fieldParts ord₁ fields).length ≤ 1 := by
          rw [fieldParts_length]; exact hsmall'.1
        simp only [Interp.value_to_string]
        rw [hparts, permValid_short h₁ _ (hparts ▸ hlen₁),
          permValid_short h₂ _ (hparts ▸ hlen₁)]
      | .enum en vn (some d) =>
        have hsz : sizeOf d < sizeOf (Value.enum en vn (some d)) := by simp; omega
        have := (ih _ hv).1 d hsz (by simpa [smallStructs] using hsmall)
        simp [Interp.value_to_string, this]
      | .enum en vn Option.none => rfl
    · intro vs hvs hsmall
      match vs with
      | [] => rfl
      | v :: rest =>
        simp only [smallStructsList, Bool.and_eq_true] at hsmall
        have hszv : sizeOf v < sizeOf (v :: rest) := by simp; omega
        have hszr : sizeOf rest < sizeOf (v :: rest) := by simp
        have e1 := (ih _ hvs).1 v hszv hsmall.1
        have e2 := (ih _ hvs).2.1 rest hszr hsmall.2
        simp [Interp.valuesToStrings, e1, e2]
    · intro fields hfields hsmall
      match fields with
      | [] => rfl
      | (k, v) :: rest =>
        simp only [smallStructsFields, Bool.and_eq_true] at hsmall
        have hszv : sizeOf v < sizeOf ((k, v) :: rest) := by simp; omega
        have hszr : sizeOf rest < sizeOf ((k, v) :: rest) := by simp
        have e1 := (ih _ hfields).1 v hszv hsmall.1
        have e2 := (ih _ hfields).2.2 rest hszr hsmall.2
        simp [Interp.fieldParts, e1, e2]

/-- C4 counterexample: printing is not run-independent.  The identity
order and the reversed order are both valid hash-map iteration orders, yet
they render the two-field struct value `P { x: 3, y: 4 }` differently —
two runs of the evaluator on identical source and file system can print a
struct's fields in different orders, contradicting the claim. -/
theorem C4_struct_print_order_counterexample :
    permValid id
  ∧ permValid List.reverse
  ∧ Interp.value_to_string id (.struct "P" [("x", .int 3), ("y", .int 4)]) ≠
      Interp.value_to_string List.reverse
        (.struct "P" [("x", .int 3), ("y", .int 4)]) := by
  refine ⟨fun l => List.Perm.refl l, fun l => List.reverse_perm l, ?_⟩
  decide

/-- C4 (amended): value rendering — hence the stdout of a print — is
independent of the run's hash-map iteration order for every value whose
structs have at most one field; the order-dependence of `value_to_string`
is confined to structs with two or more fields. -/
theorem C4_render_deterministic_small_structs (v : Value)
    (hsmall : smallStructs v = true)
    (ord₁ ord₂ : List String → List String)
    (h₁ : permValid ord₁) (h₂ : permValid ord₂) :
    Interp.value_to_string ord₁ v = Interp.value_to_string ord₂ v :=
  (value_to_string_ord_congr ord₁ ord₂ h₁ h₂ (sizeOf v + 1)).1 v
    (Nat.lt_succ_self _) hsmall

/-- Witness for the amended C4 theorem: a nested value with a one-field
struct renders identically under the identity and the reversed iteration
orders. -/
theorem C4_render_deterministic_small_structs_witness :
    Interp.value_to_string id
        (.array [.struct "Q" [("x", .int 7)], .int 5]) =
      Interp.value_to_string List.reverse
        (.array [.struct "Q" [("x", .int 7)], .int 5]) :=
  C4_render_deterministic_small_structs
    (.array [.struct "Q" [("x", .int 7)], .int 5]) (by decide)
    id List.reverse (fun l => List.Perm.refl l) (fun l => List.reverse_perm l)

theorem contains_eq_mem (l : List String) (a : String) :
    l.contains a = true ↔ a ∈ l :=
  List.elem_iff

theorem insertSet_mem (s : List String) (y x : String) :
    x ∈ Optimizer.insertSet s y ↔ x ∈ s ∨ x = y := by
  unfold Optimizer.insertSet
  by_cases h : y ∈ s
  · rw [if_pos ((contains_eq_mem s y).mpr h)]
    constructor
    · exact Or.inl
    · rintro (hx | rfl)
      · exact hx
      · exact h
  · rw [if_neg (fun hc => h ((contains_eq_mem s y).mp hc))]
    simp [List.mem_cons, or_comm]

mutual

theorem findCalls_block_mem : ∀ (b : IrBlock) (acc : List String) (x : String),
    x ∈ Optimizer.find_function_calls b acc ↔ x ∈ acc ∨ x ∈ calleesOfBlock b
  | .block stmts, acc, x => by
    simp [Optimizer.find_function_calls, calleesOfBlock,
      findCalls_stmtList_mem stmts acc x]
  | .expression e, acc, x => by
    simp [Optimizer.find_function_calls, calleesOfBlock,
      findCalls_expr_mem e acc x]

theorem findCalls_stmtList_mem : ∀ (sl : List IrStatement) (acc : List String)
    (x : String),
    x ∈ Optimizer.findCallsStmtList sl acc ↔ x ∈ acc ∨ x ∈ calleesOfStmtList sl
  | [], acc, x => by simp [Optimizer.findCallsStmtList, calleesOfStmtList]
  | s :: rest, acc, x => by
    simp [Optimizer.findCallsStmtList, calleesOfStmtList,
      findCalls_stmtList_mem rest (Optimizer.find_function_calls_in_stmt s acc) x,
      findCalls_stmt_mem s acc x, or_assoc]

theorem findCalls_stmt_mem : ∀ (s : IrStatement) (acc : List String) (x : String),
    x ∈ Optimizer.find_function_calls_in_stmt s acc ↔ x ∈ acc ∨ x ∈ calleesOfStmt s
  | .let_ n v, acc, x => by
    simp [Optimizer.find_function_calls_in_stmt, calleesOfStmt,
      findCalls_expr_mem v acc x]
  | .assign n v, acc, x => by
    simp [Optimizer.find_function_calls_in_stmt, calleesOfStmt,
      findCalls_expr_mem v acc x]
  | .return_ (some e), acc, x => by
    simp [Optimizer.find_function_calls_in_stmt, calleesOfStmt,
      findCalls_expr_mem e acc x]
  | .return_ Option.none, acc, x => by
    simp [Optimizer.find_function_calls_in_stmt, calleesOfStmt]
  | .expression e, acc, x => by
    simp [Optimizer.find_function_calls_in_stmt, calleesOfStmt,
      findCalls_expr_mem e acc x]
  | .if_ c t (some e), acc, x => by
    simp [Optimizer.find_function_calls_in_stmt, calleesOfStmt,
      findCalls_block_mem e _ x, findCalls_block_mem t _ x,
      findCalls_expr_mem c acc x, or_assoc]
  | .if_ c t Option.none, acc, x => by
    simp [Optimizer.find_function_calls_in_stmt, calleesOfStmt,
      findCalls_block_mem t _ x, findCalls_expr_mem c acc x, or_assoc]
  | .while_ c b, acc, x => by
    simp [Optimizer.find_function_calls_in_stmt, calleesOfStmt,
      findCalls_block_mem b _ x, findCalls_expr_mem c acc x, or_assoc]
  | .break_, acc, x => by
    simp [Optimizer.find_function_calls_in_stmt, calleesOfStmt]
  | .continue_, acc, x => by
    simp [Optimizer.find_function_calls_in_stmt, calleesOfStmt]

theorem findCalls_expr_mem : ∀ (e : IrExpression) (acc : List String) (x : String),
    x ∈ Optimizer.find_function_calls_in_expr e acc ↔ x ∈ acc ∨ x ∈ calleesOfExpr e
  | .literal v, acc, x => by
    simp [Optimizer.find_function_calls_in_expr, calleesOfExpr]
  | .variable n, acc, x => by
    simp [Optimizer.find_function_calls_in_expr, calleesOfExpr]
  | .binaryOp l op r, acc, x => by
    simp [Optimizer.find_function_calls_in_expr, calleesOfExpr,
      findCalls_expr_mem r _ x, findCalls_expr_mem l acc x, or_assoc]
  | .unaryOp op e, acc, x => by
    simp [Optimizer.find_function_calls_in_expr, calleesOfExpr,
      findCalls_expr_mem e acc x]
  | .call callee args, acc, x => by
    simp only [Optimizer.find_function_calls_in_expr, calleesOfExpr,
      findCalls_exprList_mem args _ x, insertSet_mem acc callee x,
      List.mem_cons, or_assoc]
  | .index b i, acc, x => by
    simp [Optimizer.find_function_calls_in_expr, calleesOfExpr,
      findCalls_expr_mem i _ x, findCalls_expr_mem b acc x, or_assoc]

theorem findCalls_exprList_mem : ∀ (es : List IrExpression) (acc : List String)
    (x : String),
    x ∈ Optimizer.findCallsExprList es acc ↔ x ∈ acc ∨ x ∈ calleesOfExprList es
  | [], acc, x => by simp [Optimizer.findCallsExprList, calleesOfExprList]
  | e :: rest, acc, x => by
    simp [Optimizer.findCallsExprList, calleesOfExprList,
      findCalls_exprList_mem rest _ x, findCalls_expr_mem e acc x, or_assoc]

end

theorem calledSet_fold_mem (fns : List IrFunction) (acc : List String) (x : String) :
    x ∈ fns.foldl (fun acc f => Optimizer.find_function_calls f.body acc) acc ↔
      x ∈ acc ∨ ∃ g ∈ fns, x ∈ calleesOfBlock g.body := by
  induction fns generalizing acc with
  | nil => simp
  | cons f rest ih =>
    rw [List.foldl_cons, ih]
    simp [findCalls_block_mem f.body acc x]
    tauto

/-- C5 (amended): what the unused-function pass actually keeps.  A
function survives `remove_unused_functions` iff it is in the program and
is named `main`, or is public, or its name occurs in a call expression
somewhere in the program — including inside the bodies of functions that
are themselves removed.  The set is computed in a single scan of every
function, not as a transitive closure from `main` and the public
functions. -/
theorem C5_remove_unused_keeps_called_or_public (p : IrProgram) (f : IrFunction) :
    f ∈ (Optimizer.remove_unused_functions p).functions ↔
      f ∈ p.functions ∧
        (f.name = "main" ∨ f.is_public = true ∨
          ∃ g ∈ p.functions, f.name ∈ calleesOfBlock g.body) := by
  unfold Optimizer.remove_unused_functions
  simp only [List.mem_filter, Bool.or_eq_true]
  constructor
  · rintro ⟨hf, hcond⟩
    refine ⟨hf, ?_⟩
    rcases hcond with hc | hp
    · rcases (calledSet_fold_mem p.functions ["main"] f.name).mp
        ((contains_eq_mem _ _).mp hc) with h1 | h2
      · exact Or.inl (by simpa using h1)
      · exact Or.inr (Or.inr h2)
    · exact Or.inr (Or.inl hp)
  · rintro ⟨hf, hcond⟩
    refine ⟨hf, ?_⟩
    rcases hcond with hm | hp | hcalled
    · exact Or.inl ((contains_eq_mem _ _).mpr
        ((calledSet_fold_mem p.functions ["main"] f.name).mpr
          (Or.inl (by simp [hm]))))
    · exact Or.inr hp
    · exact Or.inl ((contains_eq_mem _ _).mpr
        ((calledSet_fold_mem p.functions ["main"] f.name).mpr (Or.inr hcalled)))

/-- Witness for the amended C5 theorem at a concrete program: in a program
with public `main`, private `f` calling `g`, and private `g`, the function
`g` is kept by the pass (its name occurs in `f`'s call expression even
though `f` itself is unreachable and removed). -/
theorem C5_remove_unused_keeps_called_or_public_witness :
    (⟨"g", [], Option.none, .expression (.literal (.int 1)), false⟩ : IrFunction) ∈
      (Optimizer.remove_unused_functions
        ⟨[ ⟨"main", [], Option.none, .expression (.literal (.int 0)), true⟩
         , ⟨"f", [], Option.none, .expression (.call "g" []), false⟩
         , ⟨"g", [], Option.none, .expression (.literal (.int 1)), false⟩ ], []⟩).functions :=
  (C5_remove_unused_keeps_called_or_public
    ⟨[ ⟨"main", [], Option.none, .expression (.literal (.int 0)), true⟩
     , ⟨"f", [], Option.none, .expression (.call "g" []), false⟩
     , ⟨"g", [], Option.none, .expression (.literal (.int 1)), false⟩ ], []⟩
    ⟨"g", [], Option.none, .expression (.literal (.int 1)), false⟩).mpr
    ⟨by simp, Or.inr (Or.inr
      ⟨⟨"f", [], Option.none, .expression (.call "g" []), false⟩, by simp,
        by simp [calleesOfBlock, calleesOfExpr, calleesOfExprList]⟩)⟩

/-- C5 counterexample: the pass does not remove exactly the functions
outside the transitively-reachable set.  In the program with public `main`
(calling nothing), private `f` calling `g`, and private `g`, the claim's
reachable set from `main` and the public functions does not contain `g`,
yet the pass keeps `g` (it removes only `f`): a function called only from
an unreachable function is kept, not removed. -/
theorem C5_not_reachability_counterexample :
    ((Optimizer.remove_unused_functions
        ⟨[ ⟨"main", [], Option.none, .expression (.literal (.int 0)), true⟩
         , ⟨"f", [], Option.none, .expression (.call "g" []), false⟩
         , ⟨"g", [], Option.none, .expression (.literal (.int 1)), false⟩ ], []⟩).functions.map
      (fun f => f.name) = ["main", "g"])
  ∧ "g" ∉ specReachableNames
      ⟨[ ⟨"main", [], Option.none, .expression (.literal (.int 0)), true⟩
       , ⟨"f", [], Option.none, .expression (.call "g" []), false⟩
       , ⟨"g", [], Option.none, .expression (.literal (.int 1)), false⟩ ], []⟩ := by
  constructor
  · rfl
  · decide

theorem exceptBind_ok {ε α β : Type} (a : α) (f : α → Except ε β) :
    ((Except.ok a : Except ε α) >>= f) = f a := rfl

theorem exceptBind_error {ε α β : Type} (e : ε) (f : α → Except ε β) :
    ((Except.error e : Except ε α) >>= f) = .error e := rfl

theorem exceptPure_eq_ok {ε α : Type} (a : α) :
    (pure a : Except ε α) = .ok a := rfl

theorem int_beq_decide (x y : Int) : (x == y) = decide (x = y) := by
  by_cases h : x = y <;> simp [h]

theorem int_bne_decide (x y : Int) : (x != y) = decide (¬ x = y) := by
  by_cases h : x = y <;> simp [h]

theorem evalB_literal_sound (a : IrValue) (op : BinaryOp) (b : IrValue)
    (v : IrValue) (h : Optimizer.evaluate_binary_op a op b = .ok (some v))
    (env : String → Option Value)
    (oracle : String → List Value → Except EvalErr Value) :
    irEvalExpr env oracle (.literal v) =
      irEvalExpr env oracle (.binaryOp (.literal a) op (.literal b)) := by
  cases a <;> cases b <;> cases op <;>
    simp only [Optimizer.evaluate_binary_op] at h <;>
    first
    | (simp only [Except.ok.injEq, Option.some.injEq] at h; subst h; rfl)
    | (simp only [Except.ok.injEq, Option.some.injEq] at h; subst h;
       simp [irEvalExpr, irValueEval, Interp.evaluate_binary_op, exceptBind_ok,
         int_beq_decide, int_bne_decide, decide_not])
    | (split at h <;>
        first
        | (simp at h; done)
        | (simp only [Except.ok.injEq, Option.some.injEq] at h; subst h;
           rename_i hnz;
           simp [irEvalExpr, irValueEval, Interp.evaluate_binary_op,
             exceptBind_ok, hnz]))
    | simp at h

theorem evalU_literal_sound (op : UnaryOp) (a : IrValue) (v : IrValue)
    (h : Optimizer.evaluate_unary_op op a = .ok (some v))
    (env : String → Option Value)
    (oracle : String → List Value → Except EvalErr Value) :
    irEvalExpr env oracle (.literal v) =
      irEvalExpr env oracle (.unaryOp op (.literal a)) := by
  cases a <;> cases op <;>
    simp only [Optimizer.evaluate_unary_op] at h <;>
    first
    | (simp only [Except.ok.injEq, Option.some.injEq] at h; subst h; rfl)
    | simp at h

theorem irEval_binop_congr (env : String → Option Value)
    (oracle : String → List Value → Except EvalErr Value)
    (l l' r r' : IrExpression) (op : BinaryOp)
    (hl : irEvalExpr env oracle l' = irEvalExpr env oracle l)
    (hr : irEvalExpr env oracle r' = irEvalExpr env oracle r) :
    irEvalExpr env oracle (.binaryOp l' op r') =
      irEvalExpr env oracle (.binaryOp l op r) := by
  simp only [irEvalExpr]
  simp only [hl, hr]

theorem irEval_unop_congr (env : String → Option Value)
    (oracle : String → List Value → Except EvalErr Value)
    (x x' : IrExpression) (op : UnaryOp)
    (hx : irEvalExpr env oracle x' = irEvalExpr env oracle x) :
    irEvalExpr env oracle (.unaryOp op x') =
      irEvalExpr env oracle (.unaryOp op x) := by
  simp only [irEvalExpr]
  simp only [hx]

theorem foldRetry_sound (fl : IrExpression) (op : BinaryOp) (fr : IrExpression)
    (e' : IrExpression) (h : Optimizer.foldRetry fl op fr = .ok e')
    (env : String → Option Value)
    (oracle : String → List Value → Except EvalErr Value) :
    irEvalExpr env oracle e' = irEvalExpr env oracle (.binaryOp fl op fr) := by
  cases fl <;> cases fr <;>
    simp only [Optimizer.foldRetry] at h <;>
    first
    | (simp only [Except.ok.injEq] at h; subst h; rfl)
    | (rcases hev : Optimizer.evaluate_binary_op _ op _ with e | v' <;> rw [hev] at h
       · simp at h
       · rcases v' with _ | v'
         · simp only [Except.ok.injEq] at h; subst h; rfl
         · simp only [Except.ok.injEq] at h; subst h
           exact evalB_literal_sound _ op _ v' hev env oracle)

theorem foldUnaryRetry_sound (op : UnaryOp) (f : IrExpression)
    (e' : IrExpression) (h : Optimizer.foldUnaryRetry op f = .ok e')
    (env : String → Option Value)
    (oracle : String → List Value → Except EvalErr Value) :
    irEvalExpr env oracle e' = irEvalExpr env oracle (.unaryOp op f) := by
  cases f <;>
    simp only [Optimizer.foldUnaryRetry] at h <;>
    first
    | (simp only [Except.ok.injEq] at h; subst h; rfl)
    | (rcases hev : Optimizer.evaluate_unary_op op _ with e | v' <;> rw [hev] at h
       · simp at h
       · rcases v' with _ | v'
         · simp only [Except.ok.injEq] at h; subst h; rfl
         · simp only [Except.ok.injEq] at h; subst h
           exact evalU_literal_sound op _ v' hev env oracle)

theorem foldFirstTry_some (l : IrExpression) (op : BinaryOp) (r : IrExpression)
    (v : IrValue) (h : Optimizer.foldFirstTry l op r = .ok (some v)) :
    ∃ a b, l = .literal a ∧ r = .literal b ∧
      Optimizer.evaluate_binary_op a op b = .ok (some v) := by
  cases l <;> cases r <;> simp only [Optimizer.foldFirstTry] at h <;>
    first
    | exact ⟨_, _, rfl, rfl, h⟩
    | simp at h

/-- Folding preserves the IR evaluation semantics: whenever
`fold_constant_expr` succeeds, the folded expression evaluates exactly as
the original, in any environment and with any call oracle. -/
theorem fold_preserves (env : String → Option Value)
    (oracle : String → List Value → Except EvalErr Value) :
    ∀ (e e' : IrExpression), Optimizer.fold_constant_expr e = .ok e' →
      irEvalExpr env oracle e' = irEvalExpr env oracle e
  | .binaryOp l op r, e', h => by
    simp only [Optimizer.fold_constant_expr] at h
    rcases hft : Optimizer.foldFirstTry l op r with e | ft <;> rw [hft] at h
    · simp [exceptBind_error] at h
    · rcases ft with _ | v
      · simp only [exceptBind_ok] at h
        rcases hfl : Optimizer.fold_constant_expr l with e | fl <;> rw [hfl] at h
        · simp [exceptBind_error] at h
        · simp only [exceptBind_ok] at h
          rcases hfr : Optimizer.fold_constant_expr r with e | fr <;> rw [hfr] at h
          · simp [exceptBind_error] at h
          · simp only [exceptBind_ok] at h
            have ihl := fold_preserves env oracle l fl hfl
            have ihr := fold_preserves env oracle r fr hfr
            calc irEvalExpr env oracle e'
                = irEvalExpr env oracle (.binaryOp fl op fr) :=
                  foldRetry_sound fl op fr e' h env oracle
              _ = irEvalExpr env oracle (.binaryOp l op r) :=
                  irEval_binop_congr env oracle l fl r fr op ihl ihr
      · simp only [exceptBind_ok, exceptPure_eq_ok, Except.ok.injEq] at h
        subst h
        obtain ⟨a, b, rfl, rfl, hev⟩ := foldFirstTry_some l op r v hft
        exact evalB_literal_sound a op b v hev env oracle
  | .unaryOp op x, e', h => by
    simp only [Optimizer.fold_constant_expr] at h
    rcases hfx : Optimizer.fold_constant_expr x with e | fx <;> rw [hfx] at h
    · simp [exceptBind_error] at h
    · simp only [exceptBind_ok] at h
      have ihx := fold_preserves env oracle x fx hfx
      calc irEvalExpr env oracle e'
          = irEvalExpr env oracle (.unaryOp op fx) :=
            foldUnaryRetry_sound op fx e' h env oracle
        _ = irEvalExpr env oracle (.unaryOp op x) :=
          irEval_unop_congr env oracle x fx op ihx
  | .literal v, e', h => by
    simp only [Optimizer.fold_constant_expr, Except.ok.injEq] at h; subst h; rfl
  | .variable n, e', h => by
    simp only [Optimizer.fold_constant_expr, Except.ok.injEq] at h; subst h; rfl
  | .call c args, e', h => by
    simp only [Optimizer.fold_constant_expr, Except.ok.injEq] at h; subst h; rfl
  | .index b i, e', h => by
    simp only [Optimizer.fold_constant_expr, Except.ok.injEq] at h; subst h; rfl

theorem fold_literal_only_when (a : IrValue) (op : BinaryOp) (b : IrValue)
    (v : IrValue) (h : Optimizer.evaluate_binary_op a op b = .ok (some v)) :
    ((∃ x, a = IrValue.int x) ∧ (∃ y, b = IrValue.int y)) ∧
      (op = .add ∨ op = .sub ∨ op = .mul ∨ op = .div ∨ op = .eq ∨ op = .ne) := by
  cases a <;> cases b <;> cases op <;>
    simp only [Optimizer.evaluate_binary_op] at h <;>
    first
    | (refine ⟨⟨⟨_, rfl⟩, ⟨_, rfl⟩⟩, ?_⟩; decide)
    | simp at h

/-- C3: constant folding is semantics-preserving — whenever
`fold_constant_expr` succeeds, the rewritten expression evaluates exactly
as the original (first conjunct); the folding table replaces a binary op by
a literal only when both operands are integer literals and the op is one of
`+ - * / == !=` (second conjunct); and folding an integer division whose
right operand is the literal `0` is a compile-time "Division by zero" error
(third conjunct). -/
theorem C3_constant_folding :
    (∀ (env : String → Option Value)
      (oracle : String → List Value → Except EvalErr Value)
      (e e' : IrExpression), Optimizer.fold_constant_expr e = .ok e' →
        irEvalExpr env oracle e' = irEvalExpr env oracle e)
  ∧ (∀ (a : IrValue) (op : BinaryOp) (b : IrValue) (v : IrValue),
      Optimizer.evaluate_binary_op a op b = .ok (some v) →
        ((∃ x, a = IrValue.int x) ∧ (∃ y, b = IrValue.int y)) ∧
          (op = .add ∨ op = .sub ∨ op = .mul ∨ op = .div ∨ op = .eq ∨ op = .ne))
  ∧ (∀ x : Int, Optimizer.fold_constant_expr
      (.binaryOp (.literal (.int x)) .div (.literal (.int 0))) =
      .error (.runtimeError "Division by zero" Option.none)) := by
  refine ⟨fun env oracle e e' h => fold_preserves env oracle e e' h,
    fun a op b v h => fold_literal_only_when a op b v h, fun x => rfl⟩

theorem lookupKV_insertKV_self {α : Type} (m : List (String × α)) (k : String)
    (v : α) : lookupKV (insertKV m k v) k = some v := by
  induction m with
  | nil => simp [insertKV, lookupKV]
  | cons p rest ih =>
    by_cases h : p.1 = k
    · simp [insertKV, h, lookupKV]
    · cases p
      simp_all [insertKV, lookupKV, h]

theorem containsKV_insertKV_self {α : Type} (m : List (String × α)) (k : String)
    (v : α) : containsKV (insertKV m k v) k = true := by
  simp [containsKV, lookupKV_insertKV_self]

theorem removeKV_insertKV_of_none {α : Type} (m : List (String × α)) (k : String)
    (v : α) (h : lookupKV m k = Option.none) :
    removeKV (insertKV m k v) k = m := by
  induction m with
  | nil => simp [insertKV, removeKV]
  | cons p rest ih =>
    cases p with
    | mk k' v' =>
      by_cases hk : k' = k
      · simp [lookupKV, hk] at h
      · simp only [lookupKV, hk, if_false] at h
        simp [insertKV, removeKV, hk, ih h]

theorem list_set_self {α : Type} (l : List α) (i : Nat) (a : α)
    (h : l[i]? = some a) : l.set i a = l := by
  induction l generalizing i with
  | nil => simp at h
  | cons x rest ih =>
    cases i with
    | zero => simp at h; simp [h]
    | succ j =>
      simp at h
      simp [List.set, ih j h]

theorem frames_get_current (st : InterpState) (hfr : st.env < st.frames.length) :
    ∃ fr, st.frames[st.env]? = some fr :=
  ⟨_, List.getElem?_eq_getElem (by simpa using hfr)⟩

/-- One saved/define/restore round of the for-loop, when the body completed
normally and a previous binding existed: `assign` succeeds and the
variable's lookup is back to the saved value. -/
theorem forRestore_some (st : InterpState) (x : String) (v o : Value)
    (hfr : st.env < st.frames.length) :
    ∃ st₂, assignVar (defineVar st x v) x o = .ok st₂ ∧
      getVar st₂ x = .ok o ∧ st₂.env = st.env ∧
      st₂.frames.length = st.frames.length := by
  obtain ⟨fr, hfr0⟩ := frames_get_current st hfr
  set frA : Environment := { fr with values := insertKV fr.values x v } with hfrA
  set frB : Environment := { frA with values := insertKV frA.values x o } with hfrB
  set stA : InterpState := { st with frames := st.frames.set st.env frA } with hstA
  set stB : InterpState :=
    { st with frames := (st.frames.set st.env frA).set st.env frB } with hstB
  have hdef : defineVar st x v = stA := by
    rw [defineVar, List.get?_eq_getElem?, hfr0]
  have hgetA : stA.frames[stA.env]? = some frA := by
    rw [hstA]
    show (st.frames.set st.env frA)[st.env]? = some frA
    rw [List.getElem?_set_self (by simpa using hfr)]
  obtain ⟨g, hg⟩ : ∃ g, st.frames.length = g + 1 :=
    ⟨st.frames.length - 1, by omega⟩
  refine ⟨stB, ?_, ?_, rfl, by simp [hstB]⟩
  · rw [hdef]
    show envAssign stA stA.frames.length stA.env x o = .ok stB
    have hlenA : stA.frames.length = g + 1 := by simp [hstA, hg]
    rw [hlenA, envAssign, List.get?_eq_getElem?, hgetA]
    simp only [hfrA, containsKV_insertKV_self, if_true]
  · show envGet stB stB.frames.length stB.env x = .ok o
    have hlenB : stB.frames.length = g + 1 := by simp [hstB, hg]
    have hgetB : stB.frames[stB.env]? = some frB := by
      rw [hstB]
      show ((st.frames.set st.env frA).set st.env frB)[st.env]? = some frB
      rw [List.getElem?_set_self (by simp; omega)]
    rw [hlenB, envGet, List.get?_eq_getElem?, hgetB]
    simp only [hfrB, hfrA, lookupKV_insertKV_self]

/-- One saved/define/restore round when no previous binding existed:
`remove` puts the state back exactly. -/
theorem forRestore_none (st : InterpState) (x : String) (v : Value)
    (hfr : st.env < st.frames.length) (fr : Environment)
    (hfr0 : st.frames[st.env]? = some fr)
    (hnone : lookupKV fr.values x = Option.none) :
    removeVar (defineVar st x v) x = st := by
  set frA : Environment := { fr with values := insertKV fr.values x v } with hfrA
  set stA : InterpState := { st with frames := st.frames.set st.env frA } with hstA
  have hdef : defineVar st x v = stA := by
    rw [defineVar, List.get?_eq_getElem?, hfr0]
  have hgetA : stA.frames[stA.env]? = some frA := by
    rw [hstA]
    show (st.frames.set st.env frA)[st.env]? = some frA
    rw [List.getElem?_set_self (by simpa using hfr)]
  rw [hdef, removeVar, List.get?_eq_getElem?, hgetA]
  simp only [hfrA]
  rw [removeKV_insertKV_of_none fr.values x v hnone]
  rw [List.set_set]
  show ({ st with frames := st.frames.set st.env fr } : InterpState) = st
  rw [list_set_self st.frames st.env fr hfr0]

/-- If `Environment::get` from the current environment fails, the variable
is in particular absent from the current frame itself (`get` checks the
current frame first). -/
theorem getVar_error_lookup_none (st : InterpState) (x : String)
    (hfr : st.env < st.frames.length) (fr : Environment)
    (hfr0 : st.frames[st.env]? = some fr) (e : TogError)
    (herr : getVar st x = .error e) : lookupKV fr.values x = Option.none := by
  obtain ⟨g, hg⟩ : ∃ g, st.frames.length = g + 1 :=
    ⟨st.frames.length - 1, by omega⟩
  cases h : lookupKV fr.values x with
  | none => rfl
  | some v =>
    rw [getVar, hg, envGet, List.get?_eq_getElem?, hfr0] at herr
    simp [h] at herr

/-- A for-loop whose body is an empty block (so every iteration completes
with `Normal` control flow) runs the save/define/restore round on every
element and ends with the loop variable's binding — present or absent —
exactly as before the loop. -/
theorem forLoop_emptyBody (ord : Interp.IterOrd) (fs : Interp.FileSys) :
    ∀ (vs : List Value) (st : InterpState) (x : String) (fuel : Nat),
      st.env < st.frames.length → vs.length + 1 < fuel →
      ∃ st', Interp.forLoop ord fs fuel st x vs (.block []) = (st', .ok .none) ∧
        getVar st' x = getVar st x ∧ st'.env = st.env ∧
        st'.frames.length = st.frames.length
  | [], st, x, fuel + 1, _, _ => ⟨st, rfl, rfl, rfl, rfl⟩
  | v :: rest, st, x, fuel + 1, hfr, hfuel => by
    have hfuel' : rest.length + 1 < fuel := by
      simp only [List.length_cons] at hfuel; omega
    obtain ⟨f, rfl⟩ : ∃ f, fuel = f + 1 := ⟨fuel - 1, by omega⟩
    simp only [Interp.forLoop, Interp.evaluate_block, Interp.andThen]
    cases hgv : getVar st x with
    | ok o =>
      simp only [Except.toOption]
      obtain ⟨st₂, hassign, hget₂, henv₂, hlen₂⟩ := forRestore_some st x v o hfr
      rw [hassign]
      obtain ⟨st', heq, hg', he', hl'⟩ :=
        forLoop_emptyBody ord fs rest st₂ x (f + 1)
          (by rw [henv₂, hlen₂]; exact hfr) hfuel'
      exact ⟨st', heq, by rw [hg', hget₂], by rw [he', henv₂], by rw [hl', hlen₂]⟩
    | error e =>
      simp only [Except.toOption]
      obtain ⟨fr, hfr0⟩ := frames_get_current st hfr
      have hnone := getVar_error_lookup_none st x hfr fr hfr0 e hgv
      rw [forRestore_none st x v hfr fr hfr0 hnone]
      obtain ⟨st', heq, hg', he', hl'⟩ :=
        forLoop_emptyBody ord fs rest st x (f + 1) hfr hfuel'
      exact ⟨st', heq, by rw [hg', hgv], he', hl'⟩

/-- A for-loop whose body breaks immediately leaves the Rust `for` loop
from inside the `Break` match arm, before the restore code runs: the final
state still carries the loop variable bound to the current element. -/
theorem forLoop_break (ord : Interp.IterOrd) (fs : Interp.FileSys)
    (f : Nat) (st : InterpState) (x : String) (v : Value) (vs : List Value) :
    Interp.forLoop ord fs (f + 3) st x (v :: vs) (.block [Stmt.break_]) =
      (defineVar st x v, .ok .none) := rfl

/-- `fn main() { let x = 99  for x in [1, 2, 3] { break }  print(x) }`:
a for-loop that exits via `break`, with the loop variable shadowing an
enclosing binding. -/
def forBreakProgram : Program :=
  ⟨[ .expr (.function "main" [] Option.none (.block
       [ .let_ "x" Option.none (.literal (.int 99))
       , .expr (.for_ "x"
           (.literal (.array
             [.literal (.int 1), .literal (.int 2), .literal (.int 3)]))
           (.block [ .break_ ]))
       , .expr (.call (.variable "print") [.variable "x"]) ])) ]⟩

set_option maxHeartbeats 1000000 in
/-- C7 counterexample: `fn main() { let x = 99  for x in [1, 2, 3] { break }
print(x) }` prints `1` — the element the loop variable held when `break`
fired — not the saved `99` the claim's restore-on-every-exit would give. -/
theorem C7_break_skips_restore_counterexample :
    (Interp.interpret id (fun _ => Option.none) 20 forBreakProgram).1.output = "1\n"
  ∧ (Interp.interpret id (fun _ => Option.none) 20 forBreakProgram).2 = .ok ()
  ∧ ("1\n" : String) ≠ "99\n" := ⟨rfl, rfl, by decide⟩

/-- C7 (amended): the for-loop saves the loop variable and re-binds it each
iteration, but the restore runs only when an iteration's body completes
with `Normal` control flow.  (a) When every iteration completes normally
(an empty body), the loop exits normally and the loop variable's binding —
its value, or its absence from the scope — is exactly what it was before
the loop.  (b) When the body exits via `break`, the loop returns from
inside the `Break` arm and the restore is skipped: the final state is
exactly the pre-iteration state with the loop variable still bound to the
current element. -/
theorem C7_for_restore_only_on_normal_completion :
    (∀ (ord : Interp.IterOrd) (fs : Interp.FileSys) (vs : List Value)
        (st : InterpState) (x : String) (fuel : Nat),
      st.env < st.frames.length → vs.length + 1 < fuel →
      ∃ st', Interp.forLoop ord fs fuel st x vs (.block []) = (st', .ok .none) ∧
        getVar st' x = getVar st x ∧ st'.env = st.env ∧
        st'.frames.length = st.frames.length)
  ∧ (∀ (ord : Interp.IterOrd) (fs : Interp.FileSys) (f : Nat)
        (st : InterpState) (x : String) (v : Value) (vs : List Value),
      Interp.forLoop ord fs (f + 3) st x (v :: vs) (.block [Stmt.break_]) =
        (defineVar st x v, .ok .none)) :=
  ⟨fun ord fs vs st x fuel hfr hfuel =>
      forLoop_emptyBody ord fs vs st x fuel hfr hfuel,
    fun ord fs f st x v vs => forLoop_break ord fs f st x v vs⟩

/-- C9 counterexample: the call dispatcher's fall-through test is a
substring check on the builtin error's message, not an identity check on
the table's unknown-name error: `expect` on an `Err` value returns the
caller-supplied message as a runtime error, and when that message happens
to contain "Unknown builtin" the evaluator treats this real builtin
failure as "not a builtin" and falls through to the user-function lookup —
here failing with "Undefined variable: expect" — instead of returning the
builtin's error as the claim says. -/
theorem C9_expect_spoofs_unknown_builtin :
    Stdlib.call_builtin id (fun _ => Option.none) "expect"
        [.enum "Result" "Err" (some (.int 1)), .string "boom Unknown builtin"] =
      .error (.tog (.runtimeError "boom Unknown builtin" Option.none))
  ∧ ("boom Unknown builtin" : String) ≠ "Unknown builtin function: expect"
  ∧ strContainsSub "boom Unknown builtin" "Unknown builtin" = true
  ∧ Interp.evalCall id (fun _ => Option.none) 5 initState (.variable "expect")
        [.enum "Result" "Err" (some (.int 1)), .string "boom Unknown builtin"] =
      (initState, .error (.tog (.runtimeError "Undefined variable: expect"
        Option.none))) :=
  ⟨rfl, by decide, rfl, rfl⟩

/-- C9 (amended): a call whose callee is a plain name other than `print`
is dispatched to the builtin table first, whatever the environment binds
— (a) a builtin success is the call's result, shadowing any user function
of that name, and the environment is never consulted.  The fall-through
to the user-function lookup, however, is keyed on a substring test of the
error's message, not on the table's unknown-name arm: (b) a builtin
runtime error whose message does not contain "Unknown builtin" is
returned as the call's result, (c) one whose message does contain it —
the table's own "Unknown builtin function: ..." error, but also any
spoofed message such as `expect`'s caller-supplied one — falls through to
the ordinary callee evaluation, and (d) a builtin error that is not a
runtime error (a type error, say) is returned as-is without any substring
test. -/
theorem C9_builtin_dispatch_and_substring_fallthrough :
    (∀ (ord : Interp.IterOrd) (fs : Interp.FileSys) (fuel : Nat)
        (st : InterpState) (name : String) (args : List Value) (v : Value),
      name ≠ "print" → Stdlib.call_builtin ord fs name args = .ok v →
      Interp.evalCall ord fs (fuel + 1) st (.variable name) args = (st, .ok v))
  ∧ (∀ (ord : Interp.IterOrd) (fs : Interp.FileSys) (fuel : Nat)
        (st : InterpState) (name : String) (args : List Value)
        (msg : String) (line : Option Nat),
      name ≠ "print" →
      Stdlib.call_builtin ord fs name args =
        .error (.tog (.runtimeError msg line)) →
      strContainsSub msg "Unknown builtin" = false →
      Interp.evalCall ord fs (fuel + 1) st (.variable name) args =
        (st, .error (.tog (.runtimeError msg line))))
  ∧ (∀ (ord : Interp.IterOrd) (fs : Interp.FileSys) (fuel : Nat)
        (st : InterpState) (name : String) (args : List Value)
        (msg : String) (line : Option Nat),
      name ≠ "print" →
      Stdlib.call_builtin ord fs name args =
        .error (.tog (.runtimeError msg line)) →
      strContainsSub msg "Unknown builtin" = true →
      Interp.evalCall ord fs (fuel + 1) st (.variable name) args =
        Interp.evalCalleeValue ord fs fuel st (.variable name) args)
  ∧ (∀ (ord : Interp.IterOrd) (fs : Interp.FileSys) (fuel : Nat)
        (st : InterpState) (name : String) (args : List Value) (e : EvalErr),
      name ≠ "print" →
      (∀ (msg : String) (line : Option Nat), e ≠ .tog (.runtimeError msg line)) →
      Stdlib.call_builtin ord fs name args = .error e →
      Interp.evalCall ord fs (fuel + 1) st (.variable name) args =
        (st, .error e)) := by
  refine ⟨?_, ?_, ?_, ?_⟩
  · intro ord fs fl st name args v hname hcb
    have hp : (name == "print") = false := by simp [hname]
    simp [Interp.evalCall, hp, hcb]
  · intro ord fs fl st name args msg line hname hcb hsub
    have hp : (name == "print") = false := by simp [hname]
    simp [Interp.evalCall, hp, hcb, hsub]
  · intro ord fs fl st name args msg line hname hcb hsub
    have hp : (name == "print") = false := by simp [hname]
    simp [Interp.evalCall, hp, hcb, hsub]
  · intro ord fs fl st name args e hname hne hcb
    have hp : (name == "print") = false := by simp [hname]
    cases e with
    | tog t =>
      cases t with
      | runtimeError msg line => exact absurd rfl (hne msg line)
      | lexError a b c => simp [Interp.evalCall, hp, hcb]
      | parseError a b c => simp [Interp.evalCall, hp, hcb]
      | ioError a => simp [Interp.evalCall, hp, hcb]
      | typeError a b => simp [Interp.evalCall, hp, hcb]
    | hostPanic s => simp [Interp.evalCall, hp, hcb]
    | fuel => simp [Interp.evalCall, hp, hcb]

/-- C10: for integer operands, the evaluator's `Div` case returns the
runtime error "Division by zero" when the right operand is `0`, while the
`Mod` case has no such guard: it hands every right operand to the host's
`%` operator, so a zero divisor produces a host panic — not a returned
`TogError` — and every non-zero divisor produces the host remainder. -/
theorem C10_mod_zero_unguarded :
    (∀ a : Int, Interp.evaluate_binary_op (.int a) .div (.int 0) =
      .error (.tog (.runtimeError "Division by zero" Option.none)))
  ∧ (∀ a : Int, Interp.evaluate_binary_op (.int a) .mod (.int 0) =
      .error (.hostPanic "attempt to calculate the remainder with a divisor of zero"))
  ∧ (∀ (a : Int) (e : TogError),
      Interp.evaluate_binary_op (.int a) .mod (.int 0) ≠ .error (.tog e))
  ∧ (∀ a b : Int, b ≠ 0 →
      Interp.evaluate_binary_op (.int a) .mod (.int b) = .ok (.int (Int.tmod a b))) := by
  refine ⟨fun a => ?_, fun a => ?_, fun a e => ?_, fun a b hb => ?_⟩
  · simp [Interp.evaluate_binary_op]
  · simp [Interp.evaluate_binary_op]
  · simp [Interp.evaluate_binary_op]
  · simp [Interp.evaluate_binary_op, hb]

end TOG
